import Mathlib

/-!
# grbl-ls `probe.c`: probe debounce and trigger capture

A shallow embedding of `src/grbl-ls/probe.c` and theorems about it.

Modelling conventions.

* The target is an 8-bit AVR (`F_CPU`, `PROBE_DDR`, `PROBE_PORT`, `PROBE_PIN`;
  the comment at lines 29-30 keeps the counter in a `uint16_t` because
  `uint32_t` is too slow), where `int` is 16 bits wide: arithmetic on
  `uint16_t` operands is unsigned and wraps modulo `2^16`.  Machine integers
  are natural numbers, with the wrap-around written out where the code can
  overflow.
* The module's globals, and the globals of the rest of the firmware that
  `probe.c` reads or writes, are the fields of `State`.  The input register
  `PROBE_PIN` and the fields of `settings` are arguments of the functions
  that read them.
* The constants that `probe.c` takes from `grbl.h` are parameters, the fields
  of `Target`; the two bit macros of `grbl.h` are modelled below.
* `probe_set_debounce` computes in floating point.  On the target `float` and
  `double` are both binary32, so every operation of lines 82 and 87 rounds
  its exact result to the nearest binary32 value, ties to even.
  `probe_set_debounce_binary32` embeds the function with these roundings and
  with the cast of line 87 undefined outside `0 .. 65535`; floating-point
  values are the rationals they denote.  `probe_set_debounce` is the same
  function in exact arithmetic; it serves the bound on the threshold alone,
  which rounding does not affect.
* Which of its control paths a call of `probe_state_monitor` takes is
  returned next to the new state, so that "the trigger latch runs" is a
  statement about the call and not about the values it leaves behind.
-/

namespace Probe

/-- Constants that `probe.c` takes from `grbl.h`. -/
structure Target where
  PROBE_MASK : Nat
  PROBE_OFF : Nat
  EXEC_MOTION_CANCEL : Nat
  BITFLAG_INVERT_PROBE_PIN : Nat
  F_CPU : Nat
  N_AXIS : Nat

/-- The globals `probe.c` works on.  The first five are the module's own
(`probe.c` lines 25-36); the last four belong to the rest of the firmware.
The two position arrays have `n = N_AXIS` elements. -/
structure State (n : Nat) where
  probe_invert_mask : Nat
  debounce_started : Bool
  debounce_start_cycle : Nat
  debounce_threshold : Nat
  ignore_debounce : Bool
  sys_probe_state : Nat
  sys_position : Fin n → Int
  sys_probe_position : Fin n → Int
  sys_rt_exec_state : Nat

/-- Modelled from the spec: the macro `bit_true(x,mask)` of `grbl.h`, which
sets the bits of `mask` in the flag word `x` ("a single bit set in a shared
real-time execution-state flag set"). -/
def bit_true (x mask : Nat) : Nat := x ||| mask

/-- Modelled from the spec: the macro `bit_isfalse(x,mask)` of `grbl.h`, true
when the setting bit `mask` is not set in `x` ("if the invert probe pin
setting is not set"). -/
def bit_isfalse (x mask : Nat) : Bool := (x &&& mask) == 0

/-- Subtraction of two `uint16_t` values, as `unsigned int` on the target:
the difference modulo `2^16`. -/
def sub_u16 (a b : Nat) : Nat := (a % 65536 + 65536 - b % 65536) % 65536

/-- Conversion of a non-negative real value to `uint16_t`: the fractional
part is discarded.  (The conversion is defined in C only when the integral
part is representable.) -/
def to_uint16 (x : ℚ) : Nat := (Int.toNat ⌊x⌋) % 65536

/-- The call `memcpy(dst, src, cnt * sizeof(int32_t))` on two arrays of `n`
elements: the first `cnt` elements of `dst` are overwritten with those of
`src`. -/
def memcpy {n : Nat} (dst src : Fin n → Int) (cnt : Nat) : Fin n → Int :=
  fun i => if i.val < cnt then src i else dst i

/-- The state at startup as far as `probe.c` determines it: its own globals
have no initialiser, so they are zero; the globals of the rest of the
firmware are whatever their owner makes them. -/
def State.initial {n : Nat} (pos ppos : Fin n → Int) (pstate rt : Nat) : State n :=
  { probe_invert_mask := 0
    debounce_started := false
    debounce_start_cycle := 0
    debounce_threshold := 0
    ignore_debounce := false
    sys_probe_state := pstate
    sys_position := pos
    sys_probe_position := ppos
    sys_rt_exec_state := rt }

/-- `probe_configure_invert_mask` (lines 55-60); `flags` is `settings.flags`. -/
def probe_configure_invert_mask (k : Target) (flags : Nat) (s : State k.N_AXIS)
    (is_probe_away : Nat) : State k.N_AXIS :=
  let m0 : Nat := 0
  let m1 : Nat :=
    if bit_isfalse flags k.BITFLAG_INVERT_PROBE_PIN then (m0 ^^^ k.PROBE_MASK) % 256 else m0
  let m2 : Nat := if is_probe_away ≠ 0 then (m1 ^^^ k.PROBE_MASK) % 256 else m1
  { s with probe_invert_mask := m2 }

/-- `probe_get_state` (line 64); `pin` is the value read from the input
register `PROBE_PIN`.  Nonzero means triggered. -/
def probe_get_state (k : Target) (s : State k.N_AXIS) (pin : Nat) : Nat :=
  ((pin &&& k.PROBE_MASK) ^^^ s.probe_invert_mask) % 256

/-- `probe_reset_debounce` (lines 67-70). -/
def probe_reset_debounce {n : Nat} (s : State n) : State n :=
  { s with debounce_started := false }

/-- `probe_configure_ignore_debounce` (lines 74-77). -/
def probe_configure_ignore_debounce {n : Nat} (s : State n) (ignore : Bool) : State n :=
  { s with ignore_debounce := ignore }

/-- `probe_set_debounce` (lines 80-89), over exact rationals: the function
without the rounding of its floating-point operations.  The function as the
target computes it is `probe_set_debounce_binary32`. -/
def probe_set_debounce (k : Target) (s : State k.N_AXIS) (value : ℚ) : State k.N_AXIS :=
  if value > 49152 * 1000 / ((k.F_CPU / 64 : Nat) : ℚ) then
    { s with debounce_threshold := 49152 }
  else
    { s with debounce_threshold := to_uint16 (((k.F_CPU / 64 : Nat) : ℚ) * (value / 1000)) }

/-- `probe_init` (lines 39-49) as far as it acts on `State`: the writes to the
direction and pull-up registers are not modelled.  `flags` and
`probe_debounce` are the two fields of `settings` it reads. -/
def probe_init (k : Target) (flags : Nat) (probe_debounce : ℚ) (s : State k.N_AXIS) :
    State k.N_AXIS :=
  probe_set_debounce k (probe_configure_invert_mask k flags s 0) probe_debounce

/-- The four control paths through `probe_state_monitor`:
`latch` is lines 99-102, `start` is lines 104-105, `hold` is the fall-through
when neither condition of lines 97-103 holds, `clear` is line 107. -/
inductive Path where
  | latch
  | start
  | hold
  | clear
  deriving DecidableEq, Repr

/-- `probe_state_monitor` (lines 94-108), returning the path taken together
with the new state.  `pin` is the value of `PROBE_PIN` at this tick and `c` is
the argument `cycle_counter_div64`. -/
def probe_state_monitor_step (k : Target) (s : State k.N_AXIS) (pin c : Nat) :
    Path × State k.N_AXIS :=
  if probe_get_state k s pin ≠ 0 then
    if (s.ignore_debounce
        || (s.debounce_started
            && decide (sub_u16 c s.debounce_start_cycle ≥ s.debounce_threshold))) = true then
      (Path.latch,
        { s with
          debounce_started := false
          sys_probe_state := k.PROBE_OFF
          sys_probe_position := memcpy s.sys_probe_position s.sys_position k.N_AXIS
          sys_rt_exec_state := bit_true s.sys_rt_exec_state k.EXEC_MOTION_CANCEL })
    else if (!s.debounce_started) = true then
      (Path.start, { s with debounce_start_cycle := c, debounce_started := true })
    else
      (Path.hold, s)
  else
    (Path.clear, { s with debounce_started := false })

/-- The state after `probe_state_monitor`. -/
def probe_state_monitor (k : Target) (s : State k.N_AXIS) (pin c : Nat) : State k.N_AXIS :=
  (probe_state_monitor_step k s pin c).2

/-- Whether this call of `probe_state_monitor` runs lines 99-102, the trigger
latch. -/
def fires (k : Target) (s : State k.N_AXIS) (pin c : Nat) : Bool :=
  decide ((probe_state_monitor_step k s pin c).1 = Path.latch)

/-- A sequence of interrupt ticks: `probe_state_monitor` is called once per
element, with that tick's pin reading and counter value.  Returns the paths
taken, in order, and the final state. -/
def run_ticks (k : Target) (s : State k.N_AXIS) : List (Nat × Nat) → List Path × State k.N_AXIS
  | [] => ([], s)
  | t :: rest =>
    let r := probe_state_monitor_step k s t.1 t.2
    let q := run_ticks k r.2 rest
    (r.1 :: q.1, q.2)

/-- The tick with index `i` of a run in which the counter starts at `c0` and
advances by one scaled unit per tick, wrapping at `2^16`; `pin i` is the pin
register at that tick. -/
def tick_at (pin : Nat → Nat) (c0 i : Nat) : Nat × Nat := (pin i, (c0 + i) % 65536)

/-- The first `n` ticks of such a run. -/
def steady_ticks (pin : Nat → Nat) (c0 n : Nat) : List (Nat × Nat) :=
  (List.range n).map (tick_at pin c0)

/-- Line 58 of `probe_configure_invert_mask` on its own, as a step on the
mask `m`: the toggle for the invert-probe-pin setting. -/
def toggle_invert_setting (k : Target) (flags m : Nat) : Nat :=
  if bit_isfalse flags k.BITFLAG_INVERT_PROBE_PIN then (m ^^^ k.PROBE_MASK) % 256 else m

/-- Line 59 of `probe_configure_invert_mask` on its own, as a step on the
mask `m`: the toggle for probing away from the workpiece. -/
def toggle_probe_away (k : Target) (is_probe_away m : Nat) : Nat :=
  if is_probe_away ≠ 0 then (m ^^^ k.PROBE_MASK) % 256 else m

/-- The scaled time that has really passed, without wrap-around, after the
first `n` ticks that follow the opening of a session, when the counter
advances by `d i` between tick `i - 1` and tick `i` (tick `-1` being the
opening tick). -/
def true_elapsed (d : Nat → Nat) : Nat → Nat
  | 0 => 0
  | n + 1 => true_elapsed d n + d n

/-- The first `n` ticks that follow a session opened at counter `c0`: tick `i`
reads `pin i` and sees the 16-bit counter `(c0 + true_elapsed d (i + 1)) mod
2^16`. -/
def paced_ticks (pin d : Nat → Nat) (c0 n : Nat) : List (Nat × Nat) :=
  (List.range n).map (fun i => (pin i, (c0 + true_elapsed d (i + 1)) % 65536))

/-- Rounding of a rational to the nearest integer, ties to the even one. -/
def round_even (q : ℚ) : Int :=
  if q - ⌊q⌋ < 1 / 2 then ⌊q⌋
  else if 1 / 2 < q - ⌊q⌋ then ⌊q⌋ + 1
  else if ⌊q⌋ % 2 = 0 then ⌊q⌋ else ⌊q⌋ + 1

/-- The exponent of the unit in the last place of the binary32 numbers around
`x`: 24 significant bits, and `2^-149` as the smallest spacing (subnormal
range). -/
def ulp_exp (x : ℚ) : Int := max (Int.log 2 |x| - 23) (-149)

/-- The binary32 value nearest to `x`, ties to even: the result of one
floating-point operation on the target, where `float` and `double` are both
binary32, whose exact result is `x`.  Results of magnitude `2^128` and above
(infinities) are not modelled; no operation of `probe_set_debounce` on a
finite argument reaches them when `F_CPU / 64 < 2^24`. -/
def round_f32 (x : ℚ) : ℚ := (round_even (x / 2 ^ ulp_exp x) : ℚ) * 2 ^ ulp_exp x

/-- The cast `(uint16_t) x` of a floating-point value: the fractional part is
discarded (truncation toward zero); the cast is undefined when the truncated
value is not in `0 .. 65535`. -/
def cast_uint16 (x : ℚ) : Option Nat :=
  if -1 < x ∧ x < 65536 then some (Int.toNat ⌊x⌋) else none

/-- `probe_set_debounce` (lines 80-89) in the arithmetic of the target: every
conversion and operation is rounded to binary32, and the result is `none`
when the cast of line 87 is undefined.  `value` is the `float` argument, a
finite binary32 value. -/
def probe_set_debounce_binary32 (k : Target) (s : State k.N_AXIS) (value : ℚ) :
    Option (State k.N_AXIS) :=
  if value > round_f32 (round_f32 (round_f32 49152 * round_f32 1000)
      / round_f32 ((k.F_CPU / 64 : Nat) : ℚ)) then
    some { s with debounce_threshold := 49152 }
  else
    (cast_uint16 (round_f32 (round_f32 ((k.F_CPU / 64 : Nat) : ℚ)
        * round_f32 (value / round_f32 1000)))).map
      (fun n => { s with debounce_threshold := n })

/-- The states the module can be in: the startup state, and every state
obtained from one of these by a call of one of the module's functions.
Durations handed to `probe_set_debounce` are non-negative. -/
inductive Reachable (k : Target) : State k.N_AXIS → Prop
  | startup (pos ppos : Fin k.N_AXIS → Int) (pstate rt : Nat) :
      Reachable k (State.initial pos ppos pstate rt)
  | init (flags : Nat) (d : ℚ) (s : State k.N_AXIS) :
      0 ≤ d → Reachable k s → Reachable k (probe_init k flags d s)
  | configure_invert_mask (flags away : Nat) (s : State k.N_AXIS) :
      Reachable k s → Reachable k (probe_configure_invert_mask k flags s away)
  | reset_debounce (s : State k.N_AXIS) :
      Reachable k s → Reachable k (probe_reset_debounce s)
  | configure_ignore_debounce (ignore : Bool) (s : State k.N_AXIS) :
      Reachable k s → Reachable k (probe_configure_ignore_debounce s ignore)
  | set_debounce (d : ℚ) (s : State k.N_AXIS) :
      0 ≤ d → Reachable k s → Reachable k (probe_set_debounce k s d)
  | state_monitor (pin c : Nat) (s : State k.N_AXIS) :
      Reachable k s → Reachable k (probe_state_monitor k s pin c)

/-- `probe_init` (lines 39-49) in the arithmetic of the target, as far as it
acts on `State`. -/
def probe_init_binary32 (k : Target) (flags : Nat) (probe_debounce : ℚ) (s : State k.N_AXIS) :
    Option (State k.N_AXIS) :=
  probe_set_debounce_binary32 k (probe_configure_invert_mask k flags s 0) probe_debounce

/-- The states the module can be in on the target: as `Reachable`, with
`probe_set_debounce` and `probe_init` in binary32 arithmetic, called with
non-negative durations and returning a state. -/
inductive ReachableBinary32 (k : Target) : State k.N_AXIS → Prop
  | startup (pos ppos : Fin k.N_AXIS → Int) (pstate rt : Nat) :
      ReachableBinary32 k (State.initial pos ppos pstate rt)
  | init (flags : Nat) (d : ℚ) (s s2 : State k.N_AXIS) :
      0 ≤ d → ReachableBinary32 k s → probe_init_binary32 k flags d s = some s2 →
      ReachableBinary32 k s2
  | configure_invert_mask (flags away : Nat) (s : State k.N_AXIS) :
      ReachableBinary32 k s → ReachableBinary32 k (probe_configure_invert_mask k flags s away)
  | reset_debounce (s : State k.N_AXIS) :
      ReachableBinary32 k s → ReachableBinary32 k (probe_reset_debounce s)
  | configure_ignore_debounce (ignore : Bool) (s : State k.N_AXIS) :
      ReachableBinary32 k s → ReachableBinary32 k (probe_configure_ignore_debounce s ignore)
  | set_debounce (d : ℚ) (s s2 : State k.N_AXIS) :
      0 ≤ d → ReachableBinary32 k s → probe_set_debounce_binary32 k s d = some s2 →
      ReachableBinary32 k s2
  | state_monitor (pin c : Nat) (s : State k.N_AXIS) :
      ReachableBinary32 k s → ReachableBinary32 k (probe_state_monitor k s pin c)

/-- Constants for concrete evaluation: a 16 MHz part with three axes, probe
on bit 5 of its port. -/
def target0 : Target :=
  { PROBE_MASK := 32
    PROBE_OFF := 0
    EXEC_MOTION_CANCEL := 64
    BITFLAG_INVERT_PROBE_PIN := 128
    F_CPU := 16000000
    N_AXIS := 3 }

/-- A concrete state: polarity mask `m`, session `(started, start)`,
threshold `thr`, ignore flag `ign`; machine position `(10, -20, 30)`, probe
record zero, no execution flag set, probe state 1. -/
def state0 (m : Nat) (started : Bool) (start thr : Nat) (ign : Bool) : State target0.N_AXIS :=
  { probe_invert_mask := m
    debounce_started := started
    debounce_start_cycle := start
    debounce_threshold := thr
    ignore_debounce := ign
    sys_probe_state := 1
    sys_position := fun i => if i.val = 0 then 10 else if i.val = 1 then -20 else 30
    sys_probe_position := fun _ => 0
    sys_rt_exec_state := 0 }

/-! ## Arithmetic of the 16-bit counter -/

theorem sub_u16_eq_emod (a b : Nat) :
    ((sub_u16 a b : Nat) : Int) = ((a : Int) - (b : Int)) % 65536 := by
  unfold sub_u16
  omega

theorem sub_u16_lt (a b : Nat) : sub_u16 a b < 65536 := by
  unfold sub_u16
  omega

theorem sub_u16_add (s e : Nat) (hs : s < 65536) (he : e < 65536) :
    sub_u16 ((s + e) % 65536) s = e := by
  unfold sub_u16
  omega

/-! ## One call of `probe_state_monitor` -/

/-- C1: in a state with a session in progress and the pin reading triggered,
`probe_state_monitor(c)` runs the trigger latch and leaves the session idle
exactly when the ignore flag is set or `(c - start) mod 2^16` is at least the
threshold; otherwise it takes the fall-through path and the state, session
included, is what it was. -/
theorem monitor_settling_triggered (k : Target) (s : State k.N_AXIS) (pin c : Nat)
    (hstarted : s.debounce_started = true) (htrig : probe_get_state k s pin ≠ 0) :
    ((fires k s pin c = true ∧ (probe_state_monitor k s pin c).debounce_started = false)
        ↔ (s.ignore_debounce = true
            ∨ ((c : Int) - (s.debounce_start_cycle : Int)) % 65536
                ≥ (s.debounce_threshold : Int)))
    ∧ (¬ (s.ignore_debounce = true
            ∨ ((c : Int) - (s.debounce_start_cycle : Int)) % 65536
                ≥ (s.debounce_threshold : Int))
        → fires k s pin c = false
          ∧ (probe_state_monitor_step k s pin c).1 = Path.hold
          ∧ probe_state_monitor k s pin c = s
          ∧ (probe_state_monitor k s pin c).debounce_started = true
          ∧ (probe_state_monitor k s pin c).debounce_start_cycle = s.debounce_start_cycle) := by
  have hcmp : ((c : Int) - (s.debounce_start_cycle : Int)) % 65536 ≥ (s.debounce_threshold : Int)
      ↔ s.debounce_threshold ≤ sub_u16 c s.debounce_start_cycle := by
    rw [← sub_u16_eq_emod]
    exact Int.ofNat_le
  rw [hcmp]
  by_cases hi : s.ignore_debounce = true
  · simp [fires, probe_state_monitor, probe_state_monitor_step, htrig, hstarted, hi]
  · by_cases he : s.debounce_threshold ≤ sub_u16 c s.debounce_start_cycle
    · simp [fires, probe_state_monitor, probe_state_monitor_step, htrig, hstarted, hi, he]
    · simp [fires, probe_state_monitor, probe_state_monitor_step, htrig, hstarted, hi, he]

theorem monitor_settling_triggered_witness :
    (state0 0 true 65530 10 false).debounce_started = true
      ∧ probe_get_state target0 (state0 0 true 65530 10 false) 32 ≠ 0
      ∧ fires target0 (state0 0 true 65530 10 false) 32 4 = true
      ∧ (probe_state_monitor target0 (state0 0 true 65530 10 false) 32 4).debounce_started
          = false :=
  ⟨by decide, by decide,
    (monitor_settling_triggered target0 (state0 0 true 65530 10 false) 32 4
      (by decide) (by decide)).1.mpr (Or.inr (by decide))⟩

/-- C2, refuted as stated: with the ignore flag set, an idle session and the
pin reading triggered, the call at counter 5 runs the trigger latch and the
session stays idle, with no start tick recorded. -/
theorem monitor_idle_triggered_ignore_fires :
    (state0 0 false 0 100 true).debounce_started = false
      ∧ probe_get_state target0 (state0 0 false 0 100 true) 32 ≠ 0
      ∧ fires target0 (state0 0 false 0 100 true) 32 5 = true
      ∧ (probe_state_monitor target0 (state0 0 false 0 100 true) 32 5).debounce_started = false
      ∧ (probe_state_monitor target0 (state0 0 false 0 100 true) 32 5).debounce_start_cycle
          ≠ 5 := by
  decide

/-- C2, amended: with the ignore flag unset, an idle session and the pin
reading triggered, `probe_state_monitor(c)` takes the start path for every
counter value and threshold: the trigger latch is not run and the new state
is the old one with `debounce_started = true` and start tick `c`. -/
theorem monitor_idle_triggered_starts (k : Target) (s : State k.N_AXIS) (pin c : Nat)
    (hign : s.ignore_debounce = false) (hidle : s.debounce_started = false)
    (htrig : probe_get_state k s pin ≠ 0) :
    fires k s pin c = false
      ∧ (probe_state_monitor_step k s pin c).1 = Path.start
      ∧ (probe_state_monitor k s pin c).debounce_started = true
      ∧ (probe_state_monitor k s pin c).debounce_start_cycle = c
      ∧ probe_state_monitor k s pin c
          = { s with debounce_start_cycle := c, debounce_started := true } := by
  simp [fires, probe_state_monitor, probe_state_monitor_step, htrig, hidle, hign]

theorem monitor_idle_triggered_starts_witness :
    fires target0 (state0 0 false 0 100 false) 32 5 = false
      ∧ (probe_state_monitor target0 (state0 0 false 0 100 false) 32 5).debounce_start_cycle
          = 5 :=
  ⟨(monitor_idle_triggered_starts target0 (state0 0 false 0 100 false) 32 5
      (by decide) (by decide) (by decide)).1,
    (monitor_idle_triggered_starts target0 (state0 0 false 0 100 false) 32 5
      (by decide) (by decide) (by decide)).2.2.2.1⟩

/-- C3: when the pin reads not triggered, `probe_state_monitor` leaves the
session idle and does not run the trigger latch, whatever the session, start
tick, threshold, ignore flag and counter are; the probe-position record and
the execution flags keep their values (only `debounce_started` is written). -/
theorem monitor_untriggered_clears (k : Target) (s : State k.N_AXIS) (pin c : Nat)
    (hoff : probe_get_state k s pin = 0) :
    (probe_state_monitor k s pin c).debounce_started = false
      ∧ fires k s pin c = false
      ∧ (probe_state_monitor k s pin c).sys_probe_position = s.sys_probe_position
      ∧ (probe_state_monitor k s pin c).sys_rt_exec_state = s.sys_rt_exec_state
      ∧ probe_state_monitor k s pin c = { s with debounce_started := false } := by
  simp [fires, probe_state_monitor, probe_state_monitor_step, hoff]

theorem monitor_untriggered_clears_witness :
    probe_get_state target0 (state0 0 true 7 100 true) 0 = 0
      ∧ (probe_state_monitor target0 (state0 0 true 7 100 true) 0 9).debounce_started = false
      ∧ fires target0 (state0 0 true 7 100 true) 0 9 = false :=
  ⟨by decide,
    (monitor_untriggered_clears target0 (state0 0 true 7 100 true) 0 9 (by decide)).1,
    (monitor_untriggered_clears target0 (state0 0 true 7 100 true) 0 9 (by decide)).2.1⟩

/-- C4: with the ignore flag set, a call of `probe_state_monitor` with the
pin reading triggered runs the trigger latch on that very tick and leaves the
session idle, for every threshold, counter value and session state. -/
theorem monitor_ignore_fires_at_once (k : Target) (s : State k.N_AXIS) (pin c : Nat)
    (hign : s.ignore_debounce = true) (htrig : probe_get_state k s pin ≠ 0) :
    fires k s pin c = true
      ∧ (probe_state_monitor k s pin c).debounce_started = false := by
  simp [fires, probe_state_monitor, probe_state_monitor_step, htrig, hign]

theorem monitor_ignore_fires_at_once_witness :
    (state0 0 true 9 49152 true).ignore_debounce = true
      ∧ probe_get_state target0 (state0 0 true 9 49152 true) 32 ≠ 0
      ∧ fires target0 (state0 0 true 9 49152 true) 32 10 = true
      ∧ (probe_state_monitor target0 (state0 0 true 9 49152 true) 32 10).debounce_started
          = false :=
  ⟨by decide, by decide,
    monitor_ignore_fires_at_once target0 (state0 0 true 9 49152 true) 32 10
      (by decide) (by decide)⟩

/-! ## Runs of ticks -/

theorem run_ticks_append (k : Target) (s : State k.N_AXIS) (a b : List (Nat × Nat)) :
    run_ticks k s (a ++ b)
      = ((run_ticks k s a).1 ++ (run_ticks k (run_ticks k s a).2 b).1,
         (run_ticks k (run_ticks k s a).2 b).2) := by
  induction a generalizing s with
  | nil => simp [run_ticks]
  | cons t rest ih => simp [run_ticks, ih]

/-- A settling session with the ignore flag unset stays as it is over any
ticks that read triggered while the elapsed count is below the threshold. -/
theorem run_ticks_hold (k : Target) (s : State k.N_AXIS) (ts : List (Nat × Nat))
    (hstarted : s.debounce_started = true) (hign : s.ignore_debounce = false)
    (h : ∀ t ∈ ts, probe_get_state k s t.1 ≠ 0
          ∧ sub_u16 t.2 s.debounce_start_cycle < s.debounce_threshold) :
    run_ticks k s ts = (List.replicate ts.length Path.hold, s) := by
  induction ts with
  | nil => simp [run_ticks]
  | cons t rest ih =>
    have ht := h t (List.mem_cons_self t rest)
    have hstep : probe_state_monitor_step k s t.1 t.2 = (Path.hold, s) := by
      simp [probe_state_monitor_step, ht.1, hstarted, hign, ht.2]
    have hrest := ih (fun u hu => h u (List.mem_cons_of_mem t hu))
    simp [run_ticks, hstep, hrest, List.replicate_succ]

/-- The opening of a steady run from an idle session with the ignore flag
unset and threshold at least `m + 1`: the first tick starts the session and
the next `m` ticks hold it. -/
theorem run_steady_open (k : Target) (s : State k.N_AXIS) (pin : Nat → Nat) (c0 m : Nat)
    (hign : s.ignore_debounce = false) (hidle : s.debounce_started = false)
    (hthr : m < s.debounce_threshold)
    (htrig : ∀ i, probe_get_state k s (pin i) ≠ 0) :
    run_ticks k s (steady_ticks pin c0 (m + 1))
      = (Path.start :: List.replicate m Path.hold,
         { s with debounce_start_cycle := c0 % 65536, debounce_started := true }) := by
  have hfirst : probe_state_monitor_step k s (pin 0) (c0 % 65536)
      = (Path.start, { s with debounce_start_cycle := c0 % 65536, debounce_started := true }) := by
    simp [probe_state_monitor_step, htrig 0, hidle, hign]
  have hmid := run_ticks_hold k
    { s with debounce_start_cycle := c0 % 65536, debounce_started := true }
    ((List.range m).map (fun i => tick_at pin c0 (i + 1))) rfl hign (by
      intro t ht
      obtain ⟨i, hi, rfl⟩ := List.mem_map.mp ht
      have hi2 : i < m := List.mem_range.mp hi
      refine ⟨htrig (i + 1), ?_⟩
      show sub_u16 ((c0 + (i + 1)) % 65536) (c0 % 65536) < s.debounce_threshold
      unfold sub_u16
      omega)
  have hlist : steady_ticks pin c0 (m + 1)
      = tick_at pin c0 0 :: (List.range m).map (fun i => tick_at pin c0 (i + 1)) := by
    simp [steady_ticks, List.range_succ_eq_map, List.map_map, Function.comp_def]
  rw [hlist]
  simp only [run_ticks, tick_at, Nat.add_zero]
  rw [hfirst]
  simp only []
  rw [show (fun i => (pin (i + 1), (c0 + (i + 1)) % 65536))
        = (fun i => tick_at pin c0 (i + 1)) from rfl, hmid]
  simp

theorem steady_ticks_succ (pin : Nat → Nat) (c0 n : Nat) :
    steady_ticks pin c0 (n + 1) = steady_ticks pin c0 n ++ [tick_at pin c0 n] := by
  simp [steady_ticks, List.range_succ]

/-- C5, refuted as stated: with threshold 0 the tick on which the elapsed
count equals the threshold is the opening tick (counter 7, start tick 7), and
the run up to and including it does not run the trigger latch; the latch
runs on the following tick, where the elapsed count is 1. -/
theorem steady_run_threshold_zero_no_fire :
    (state0 0 false 0 0 false).debounce_threshold = 0
      ∧ (run_ticks target0 (state0 0 false 0 0 false) (steady_ticks (fun _ => 32) 7 1)).1
          = [Path.start]
      ∧ sub_u16 (tick_at (fun _ => 32) 7 0).2
          (run_ticks target0 (state0 0 false 0 0 false)
            (steady_ticks (fun _ => 32) 7 1)).2.debounce_start_cycle = 0
      ∧ (run_ticks target0 (state0 0 false 0 0 false) (steady_ticks (fun _ => 32) 7 2)).1
          = [Path.start, Path.latch]
      ∧ sub_u16 (tick_at (fun _ => 32) 7 1).2 (tick_at (fun _ => 32) 7 0).2 = 1 := by
  decide

/-- C5, amended: for every threshold `T` with `1 ≤ T ≤ 49152` and every
initial counter value, from an idle session with the ignore flag unset, a run
of triggered ticks whose counter advances by one per tick takes the start
path, then `T - 1` times the fall-through path, then the latch path: the
trigger latch runs exactly once in the run of `T + 1` ticks, on its last
tick, which is the first whose elapsed count `(current - start) mod 2^16`
equals `T`; the session is idle afterwards.  (Pin readings are judged with the
polarity mask of the initial state, which `probe_state_monitor` never
writes.) -/
theorem steady_run_fires_once (k : Target) (s : State k.N_AXIS) (pin : Nat → Nat) (c0 T : Nat)
    (hT1 : 1 ≤ T) (hT : T ≤ 49152) (hthr : s.debounce_threshold = T)
    (hign : s.ignore_debounce = false) (hidle : s.debounce_started = false)
    (htrig : ∀ i, probe_get_state k s (pin i) ≠ 0) :
    (run_ticks k s (steady_ticks pin c0 (T + 1))).1
        = Path.start :: List.replicate (T - 1) Path.hold ++ [Path.latch]
      ∧ (run_ticks k s (steady_ticks pin c0 (T + 1))).1.count Path.latch = 1
      ∧ sub_u16 (tick_at pin c0 T).2 (tick_at pin c0 0).2 = T
      ∧ (∀ i, i < T → sub_u16 (tick_at pin c0 i).2 (tick_at pin c0 0).2 ≠ T)
      ∧ (run_ticks k s (steady_ticks pin c0 (T + 1))).2.debounce_started = false := by
  obtain ⟨m, rfl⟩ : ∃ m, T = m + 1 := ⟨T - 1, by omega⟩
  have hopen := run_steady_open k s pin c0 m hign hidle (by omega) htrig
  have hel : sub_u16 ((c0 + (m + 1)) % 65536) (c0 % 65536) = m + 1 := by
    unfold sub_u16
    omega
  have hlast : probe_state_monitor_step k
      { s with debounce_start_cycle := c0 % 65536, debounce_started := true }
      (pin (m + 1)) ((c0 + (m + 1)) % 65536)
      = (Path.latch,
          { s with
            debounce_start_cycle := c0 % 65536
            debounce_started := false
            sys_probe_state := k.PROBE_OFF
            sys_probe_position := memcpy s.sys_probe_position s.sys_position k.N_AXIS
            sys_rt_exec_state := bit_true s.sys_rt_exec_state k.EXEC_MOTION_CANCEL }) := by
    have hp : ((pin (m + 1) &&& k.PROBE_MASK) ^^^ s.probe_invert_mask) % 256 ≠ 0 := htrig (m + 1)
    simp [probe_state_monitor_step, probe_get_state, hp, hign, hel, hthr]
  have hrun : run_ticks k s (steady_ticks pin c0 (m + 1 + 1))
      = (Path.start :: List.replicate m Path.hold ++ [Path.latch],
          { s with
            debounce_start_cycle := c0 % 65536
            debounce_started := false
            sys_probe_state := k.PROBE_OFF
            sys_probe_position := memcpy s.sys_probe_position s.sys_position k.N_AXIS
            sys_rt_exec_state := bit_true s.sys_rt_exec_state k.EXEC_MOTION_CANCEL }) := by
    rw [steady_ticks_succ, run_ticks_append, hopen]
    simp only [run_ticks, tick_at]
    rw [hlast]
  refine ⟨?_, ?_, ?_, ?_, ?_⟩
  · rw [hrun]
    simp
  · rw [hrun]
    simp [List.count_cons, List.count_append, List.count_replicate]
  · simp only [tick_at]
    unfold sub_u16
    omega
  · intro i hi
    simp only [tick_at]
    unfold sub_u16
    omega
  · rw [hrun]

theorem steady_run_fires_once_witness :
    (run_ticks target0 (state0 0 false 0 3 false) (steady_ticks (fun _ => 32) 65534 (3 + 1))).1
        = Path.start :: List.replicate (3 - 1) Path.hold ++ [Path.latch]
      ∧ (run_ticks target0 (state0 0 false 0 3 false)
          (steady_ticks (fun _ => 32) 65534 (3 + 1))).1.count Path.latch = 1 :=
  ⟨(steady_run_fires_once target0 (state0 0 false 0 3 false) (fun _ => 32) 65534 3
      (by decide) (by decide) rfl rfl rfl
      (fun _ => (by decide : probe_get_state target0 (state0 0 false 0 3 false) 32 ≠ 0))).1,
    (steady_run_fires_once target0 (state0 0 false 0 3 false) (fun _ => 32) 65534 3
      (by decide) (by decide) rfl rfl rfl
      (fun _ => (by decide : probe_get_state target0 (state0 0 false 0 3 false) 32 ≠ 0))).2.1⟩

/-- C6: for every threshold `T ≥ 1`, from an idle session with the ignore flag
unset, a run of `T` triggered ticks with the counter advancing by one per tick
(the opening tick and `T - 1` steps after it, elapsed count below `T`
throughout) followed by a tick that reads untriggered runs the trigger latch
on none of these ticks and ends with the session idle.  The next triggered
tick, at any counter value `c`, takes the start path and records start tick
`c`; a triggered tick after that, at counter `cnext`, runs the latch exactly
when `(cnext - c) mod 2^16` is at least `T`.  (Pin readings are judged with
the polarity mask of the initial state, which `probe_state_monitor` never
writes.) -/
theorem untriggered_resets_session (k : Target) (s : State k.N_AXIS) (pin : Nat → Nat)
    (c0 T poff coff pon c pnext cnext : Nat)
    (hT1 : 1 ≤ T) (hthr : s.debounce_threshold = T)
    (hign : s.ignore_debounce = false) (hidle : s.debounce_started = false)
    (htrig : ∀ i, probe_get_state k s (pin i) ≠ 0)
    (hoff : probe_get_state k s poff = 0)
    (hon : probe_get_state k s pon ≠ 0) (hnext : probe_get_state k s pnext ≠ 0) :
    (run_ticks k s (steady_ticks pin c0 T ++ [(poff, coff)])).1
        = Path.start :: List.replicate (T - 1) Path.hold ++ [Path.clear]
      ∧ Path.latch ∉ (run_ticks k s (steady_ticks pin c0 T ++ [(poff, coff)])).1
      ∧ (run_ticks k s (steady_ticks pin c0 T ++ [(poff, coff)])).2.debounce_started = false
      ∧ fires k (run_ticks k s (steady_ticks pin c0 T ++ [(poff, coff)])).2 pon c = false
      ∧ (probe_state_monitor k
            (run_ticks k s (steady_ticks pin c0 T ++ [(poff, coff)])).2 pon c).debounce_started
          = true
      ∧ (probe_state_monitor k
            (run_ticks k s (steady_ticks pin c0 T ++ [(poff, coff)])).2 pon c).debounce_start_cycle
          = c
      ∧ (fires k
            (probe_state_monitor k
              (run_ticks k s (steady_ticks pin c0 T ++ [(poff, coff)])).2 pon c) pnext cnext
          = true ↔ T ≤ sub_u16 cnext c) := by
  obtain ⟨m, rfl⟩ : ∃ m, T = m + 1 := ⟨T - 1, by omega⟩
  have hopen := run_steady_open k s pin c0 m hign hidle (by omega) htrig
  have hoff2 : ((poff &&& k.PROBE_MASK) ^^^ s.probe_invert_mask) % 256 = 0 := hoff
  have hon2 : ((pon &&& k.PROBE_MASK) ^^^ s.probe_invert_mask) % 256 ≠ 0 := hon
  have hnext2 : ((pnext &&& k.PROBE_MASK) ^^^ s.probe_invert_mask) % 256 ≠ 0 := hnext
  have hrun : run_ticks k s (steady_ticks pin c0 (m + 1) ++ [(poff, coff)])
      = (Path.start :: List.replicate m Path.hold ++ [Path.clear],
          { s with debounce_start_cycle := c0 % 65536, debounce_started := false }) := by
    rw [run_ticks_append, hopen]
    simp [run_ticks, probe_state_monitor_step, probe_get_state, hoff2]
  rw [hrun]
  refine ⟨by simp, ?_, rfl, ?_, ?_, ?_, ?_⟩
  · simp
  · simp [fires, probe_state_monitor_step, probe_get_state, hon2, hign]
  · simp [probe_state_monitor, probe_state_monitor_step, probe_get_state, hon2, hign]
  · simp [probe_state_monitor, probe_state_monitor_step, probe_get_state, hon2, hign]
  · by_cases hc : m + 1 ≤ sub_u16 cnext c
    · simp [fires, probe_state_monitor, probe_state_monitor_step, probe_get_state, hon2, hnext2,
        hign, hthr, hc]
    · simp [fires, probe_state_monitor, probe_state_monitor_step, probe_get_state, hon2, hnext2,
        hign, hthr, hc]

theorem untriggered_resets_session_witness :
    Path.latch ∉ (run_ticks target0 (state0 0 false 0 3 false)
        (steady_ticks (fun _ => 32) 65535 3 ++ [(0, 2)])).1
      ∧ (fires target0
            (probe_state_monitor target0
              (run_ticks target0 (state0 0 false 0 3 false)
                (steady_ticks (fun _ => 32) 65535 3 ++ [(0, 2)])).2 32 3) 32 5
          = true ↔ 3 ≤ sub_u16 5 3) :=
  ⟨(untriggered_resets_session target0 (state0 0 false 0 3 false) (fun _ => 32)
      65535 3 0 2 32 3 32 5 (by decide) rfl rfl rfl
      (fun _ => (by decide : probe_get_state target0 (state0 0 false 0 3 false) 32 ≠ 0))
      (by decide) (by decide) (by decide)).2.1,
    (untriggered_resets_session target0 (state0 0 false 0 3 false) (fun _ => 32)
      65535 3 0 2 32 3 32 5 (by decide) rfl rfl rfl
      (fun _ => (by decide : probe_get_state target0 (state0 0 false 0 3 false) 32 ≠ 0))
      (by decide) (by decide) (by decide)).2.2.2.2.2.2⟩

/-! ## The trigger latch -/

theorem or_and_self_right (x m : Nat) : (x ||| m) &&& m = m := by
  apply Nat.eq_of_testBit_eq
  intro j
  rw [Nat.testBit_and, Nat.testBit_or]
  cases x.testBit j <;> cases m.testBit j <;> rfl

/-- The state after a call that runs the trigger latch (lines 99-102). -/
theorem monitor_of_fires (k : Target) (s : State k.N_AXIS) (pin c : Nat)
    (hf : fires k s pin c = true) :
    probe_state_monitor k s pin c
      = { s with
          debounce_started := false
          sys_probe_state := k.PROBE_OFF
          sys_probe_position := memcpy s.sys_probe_position s.sys_position k.N_AXIS
          sys_rt_exec_state := bit_true s.sys_rt_exec_state k.EXEC_MOTION_CANCEL } := by
  unfold fires probe_state_monitor_step at hf
  unfold probe_state_monitor probe_state_monitor_step
  split_ifs at hf ⊢ <;> simp_all

/-- C7: after every call of `probe_state_monitor` that runs the trigger
latch, `sys_probe_position` equals `sys_position` element for element,
`sys_position` is what it was, the `EXEC_MOTION_CANCEL` bit of
`sys_rt_exec_state` is set, and every other bit of `sys_rt_exec_state` has its
previous value. -/
theorem fire_captures_position (k : Target) (s : State k.N_AXIS) (pin c : Nat)
    (hf : fires k s pin c = true) :
    (∀ i, (probe_state_monitor k s pin c).sys_probe_position i = s.sys_position i)
      ∧ (probe_state_monitor k s pin c).sys_position = s.sys_position
      ∧ (probe_state_monitor k s pin c).sys_probe_position
          = (probe_state_monitor k s pin c).sys_position
      ∧ (probe_state_monitor k s pin c).sys_rt_exec_state &&& k.EXEC_MOTION_CANCEL
          = k.EXEC_MOTION_CANCEL
      ∧ (∀ j, k.EXEC_MOTION_CANCEL.testBit j = false →
          (probe_state_monitor k s pin c).sys_rt_exec_state.testBit j
            = s.sys_rt_exec_state.testBit j) := by
  rw [monitor_of_fires k s pin c hf]
  refine ⟨?_, rfl, ?_, ?_, ?_⟩
  · intro i
    simp [memcpy, i.isLt]
  · funext i
    simp [memcpy, i.isLt]
  · exact or_and_self_right _ _
  · intro j hj
    simp [bit_true, Nat.testBit_or, hj]

theorem fire_captures_position_witness :
    fires target0 (state0 0 true 65530 10 false) 32 4 = true
      ∧ (∀ i, (probe_state_monitor target0 (state0 0 true 65530 10 false) 32 4).sys_probe_position i
            = (state0 0 true 65530 10 false).sys_position i)
      ∧ (probe_state_monitor target0 (state0 0 true 65530 10 false) 32 4).sys_rt_exec_state
          &&& target0.EXEC_MOTION_CANCEL = target0.EXEC_MOTION_CANCEL :=
  ⟨by decide,
    (fire_captures_position target0 (state0 0 true 65530 10 false) 32 4 (by decide)).1,
    (fire_captures_position target0 (state0 0 true 65530 10 false) 32 4 (by decide)).2.2.2.1⟩

/-! ## Elapsed time across a counter wrap -/

/-- C8: for a 16-bit start tick `s` and a true elapsed count `e < 65536`, at
counter `c = (s + e) mod 2^16` the 16-bit unsigned difference `c - s` is `e`,
whether or not the counter wrapped (`c < s`); hence with the ignore flag unset
and any threshold `T`, in particular any `T ≤ 49152`, a triggered tick in a
session started at `s` runs the trigger latch exactly when `e ≥ T`. -/
theorem elapsed_across_wrap (k : Target) (s : State k.N_AXIS) (pin c e T : Nat)
    (hs : s.debounce_start_cycle < 65536) (he : e < 65536)
    (hc : c = (s.debounce_start_cycle + e) % 65536)
    (hthr : s.debounce_threshold = T)
    (hign : s.ignore_debounce = false) (hstarted : s.debounce_started = true)
    (htrig : probe_get_state k s pin ≠ 0) :
    sub_u16 c s.debounce_start_cycle = e
      ∧ ((c : Int) - (s.debounce_start_cycle : Int)) % 65536 = (e : Int)
      ∧ (fires k s pin c = true ↔ T ≤ e) := by
  have hsub : sub_u16 c s.debounce_start_cycle = e := by
    rw [hc]
    exact sub_u16_add _ _ hs he
  refine ⟨hsub, ?_, ?_⟩
  · rw [← sub_u16_eq_emod, hsub]
  · by_cases hTe : T ≤ e
    · simp [fires, probe_state_monitor_step, htrig, hign, hstarted, hsub, hthr, hTe]
    · simp [fires, probe_state_monitor_step, htrig, hign, hstarted, hsub, hthr, hTe]

theorem elapsed_across_wrap_witness :
    (4 : Nat) < 65530
      ∧ sub_u16 4 (state0 0 true 65530 10 false).debounce_start_cycle = 10
      ∧ (fires target0 (state0 0 true 65530 10 false) 32 4 = true ↔ 10 ≤ 10) :=
  ⟨by decide,
    (elapsed_across_wrap target0 (state0 0 true 65530 10 false) 32 4 10 10
      (by decide) (by decide) (by decide) rfl rfl rfl (by decide)).1,
    (elapsed_across_wrap target0 (state0 0 true 65530 10 false) 32 4 10 10
      (by decide) (by decide) (by decide) rfl rfl rfl (by decide)).2.2⟩

/-! ## The debounce threshold -/

theorem to_uint16_le (x : ℚ) (n : Nat) (h : x < (n : ℚ) + 1) : to_uint16 x ≤ n := by
  have hfl : ⌊x⌋ < (n : Int) + 1 := by
    rw [Int.floor_lt]
    push_cast
    exact h
  unfold to_uint16
  omega

theorem set_debounce_threshold_le (k : Target) (s : State k.N_AXIS) (d : ℚ) :
    (probe_set_debounce k s d).debounce_threshold ≤ 49152 := by
  unfold probe_set_debounce
  split_ifs with h
  · exact le_refl _
  · show to_uint16 (((k.F_CPU / 64 : Nat) : ℚ) * (d / 1000)) ≤ 49152
    apply to_uint16_le
    push_cast
    rw [not_lt] at h
    rcases Nat.eq_zero_or_pos (k.F_CPU / 64) with h0 | hpos
    · rw [h0]
      norm_num
    · have hK : (0 : ℚ) < ((k.F_CPU / 64 : Nat) : ℚ) := by exact_mod_cast hpos
      have h2 : ((k.F_CPU / 64 : Nat) : ℚ) * d ≤ 49152 * 1000 := by
        have := mul_le_mul_of_nonneg_left h hK.le
        rwa [mul_div_cancel₀ _ hK.ne.symm] at this
      have h3 : ((k.F_CPU / 64 : Nat) : ℚ) * (d / 1000) ≤ 49152 := by
        rw [← mul_div_assoc, div_le_iff₀ (by norm_num)]
        exact h2
      linarith

theorem monitor_threshold_eq (k : Target) (s : State k.N_AXIS) (pin c : Nat) :
    (probe_state_monitor k s pin c).debounce_threshold = s.debounce_threshold := by
  unfold probe_state_monitor probe_state_monitor_step
  split_ifs <;> rfl

/-! ## The polarity mask -/

theorem configure_mask_eq (k : Target) (flags : Nat) (s : State k.N_AXIS) (away : Nat)
    (hM : k.PROBE_MASK < 256) :
    (probe_configure_invert_mask k flags s away).probe_invert_mask
      = (if flags &&& k.BITFLAG_INVERT_PROBE_PIN = 0 then k.PROBE_MASK else 0)
          ^^^ (if away ≠ 0 then k.PROBE_MASK else 0) := by
  unfold probe_configure_invert_mask bit_isfalse
  by_cases hf : flags &&& k.BITFLAG_INVERT_PROBE_PIN = 0 <;> by_cases ha : away = 0 <;>
    simp [hf, ha, Nat.mod_eq_of_lt hM]

theorem configure_mask_cases (k : Target) (flags : Nat) (s : State k.N_AXIS) (away : Nat)
    (hM : k.PROBE_MASK < 256) :
    (probe_configure_invert_mask k flags s away).probe_invert_mask = 0
      ∨ (probe_configure_invert_mask k flags s away).probe_invert_mask = k.PROBE_MASK := by
  rw [configure_mask_eq k flags s away hM]
  by_cases hf : flags &&& k.BITFLAG_INVERT_PROBE_PIN = 0 <;> by_cases ha : away = 0 <;>
    simp [hf, ha]

/-- C13: for all four combinations of the invert-probe-pin setting and
`is_probe_away`, `probe_configure_invert_mask` leaves `probe_invert_mask`
equal to (`PROBE_MASK` if the setting bit is clear, else 0) xor (`PROBE_MASK`
if `is_probe_away`, else 0): `PROBE_MASK` for setting clear and toward, and
for setting set and away; 0 for setting clear and away, and for setting set
and toward; so the mask is 0 or `PROBE_MASK`.  (`PROBE_MASK` is a mask on an
8-bit port.) -/
theorem invert_mask_is_xor_of_toggles (k : Target) (flags : Nat) (s : State k.N_AXIS)
    (away : Nat) (hM : k.PROBE_MASK < 256) :
    (probe_configure_invert_mask k flags s away).probe_invert_mask
        = (if flags &&& k.BITFLAG_INVERT_PROBE_PIN = 0 then k.PROBE_MASK else 0)
            ^^^ (if away ≠ 0 then k.PROBE_MASK else 0)
      ∧ (flags &&& k.BITFLAG_INVERT_PROBE_PIN = 0 → away = 0 →
          (probe_configure_invert_mask k flags s away).probe_invert_mask = k.PROBE_MASK)
      ∧ (flags &&& k.BITFLAG_INVERT_PROBE_PIN ≠ 0 → away ≠ 0 →
          (probe_configure_invert_mask k flags s away).probe_invert_mask = k.PROBE_MASK)
      ∧ (flags &&& k.BITFLAG_INVERT_PROBE_PIN = 0 → away ≠ 0 →
          (probe_configure_invert_mask k flags s away).probe_invert_mask = 0)
      ∧ (flags &&& k.BITFLAG_INVERT_PROBE_PIN ≠ 0 → away = 0 →
          (probe_configure_invert_mask k flags s away).probe_invert_mask = 0)
      ∧ ((probe_configure_invert_mask k flags s away).probe_invert_mask = 0
          ∨ (probe_configure_invert_mask k flags s away).probe_invert_mask = k.PROBE_MASK) := by
  refine ⟨configure_mask_eq k flags s away hM, ?_, ?_, ?_, ?_,
    configure_mask_cases k flags s away hM⟩
  · intro hf ha
    rw [configure_mask_eq k flags s away hM]
    simp [hf, ha]
  · intro hf ha
    rw [configure_mask_eq k flags s away hM]
    simp [hf, ha]
  · intro hf ha
    rw [configure_mask_eq k flags s away hM]
    simp [hf, ha]
  · intro hf ha
    rw [configure_mask_eq k flags s away hM]
    simp [hf, ha]

theorem invert_mask_is_xor_of_toggles_witness :
    (probe_configure_invert_mask target0 0 (state0 0 false 0 0 false) 0).probe_invert_mask = 32
      ∧ (probe_configure_invert_mask target0 128 (state0 0 false 0 0 false) 1).probe_invert_mask
          = 32
      ∧ (probe_configure_invert_mask target0 0 (state0 0 false 0 0 false) 1).probe_invert_mask
          = 0
      ∧ (probe_configure_invert_mask target0 128 (state0 0 false 0 0 false) 0).probe_invert_mask
          = 0 :=
  ⟨(invert_mask_is_xor_of_toggles target0 0 (state0 0 false 0 0 false) 0 (by decide)).2.1
      (by decide) (by decide),
    (invert_mask_is_xor_of_toggles target0 128 (state0 0 false 0 0 false) 1 (by decide)).2.2.1
      (by decide) (by decide),
    (invert_mask_is_xor_of_toggles target0 0 (state0 0 false 0 0 false) 1 (by decide)).2.2.2.1
      (by decide) (by decide),
    (invert_mask_is_xor_of_toggles target0 128 (state0 0 false 0 0 false) 0 (by decide)).2.2.2.2.1
      (by decide) (by decide)⟩

theorem and_two_pow_cases (n b : Nat) :
    n &&& 2 ^ b = if n.testBit b then 2 ^ b else 0 := by
  apply Nat.eq_of_testBit_eq
  intro j
  rw [Nat.testBit_and, Nat.testBit_two_pow]
  by_cases hj : b = j
  · subst hj
    cases h : n.testBit b <;> simp [Nat.testBit_two_pow]
  · cases h : n.testBit b <;> simp [hj, Nat.testBit_two_pow]

theorem two_pow_lt_256 (b : Nat) (hb : b < 8) : 2 ^ b < 256 := by
  have : 2 ^ b < 2 ^ 8 := Nat.pow_lt_pow_right (by decide) hb
  simpa using this

/-- C14: when `PROBE_MASK` is a single bit of an 8-bit port and the polarity
mask is one produced by `probe_configure_invert_mask`, `probe_get_state()` is
nonzero exactly when the raw probe bit (`PROBE_PIN & PROBE_MASK != 0`)
differs from the mask bit (`probe_invert_mask != 0`); its value is the xor of
the raw reading and the mask, and it is the same for two port values that
agree on the probe bit.  (The function only returns a value: it writes no
global, so its embedding has no state result.) -/
theorem get_state_is_xor_of_raw_and_mask (k : Target) (s s0 : State k.N_AXIS)
    (flags away pin : Nat)
    (hbit : ∃ b, b < 8 ∧ k.PROBE_MASK = 2 ^ b)
    (hmask : s.probe_invert_mask
      = (probe_configure_invert_mask k flags s0 away).probe_invert_mask) :
    (probe_get_state k s pin ≠ 0
        ↔ ¬ ((pin &&& k.PROBE_MASK ≠ 0) ↔ (s.probe_invert_mask ≠ 0)))
      ∧ probe_get_state k s pin = (pin &&& k.PROBE_MASK) ^^^ s.probe_invert_mask
      ∧ (∀ other, other &&& k.PROBE_MASK = pin &&& k.PROBE_MASK →
          probe_get_state k s other = probe_get_state k s pin)
      ∧ (∀ other b, k.PROBE_MASK = 2 ^ b → other.testBit b = pin.testBit b →
          probe_get_state k s other = probe_get_state k s pin) := by
  obtain ⟨b, hb, hM⟩ := hbit
  have hlt : k.PROBE_MASK < 256 := by
    rw [hM]
    exact two_pow_lt_256 b hb
  have hpos : 2 ^ b ≠ 0 := by positivity
  have hcases := configure_mask_cases k flags s0 away hlt
  rw [← hmask] at hcases
  have hval : probe_get_state k s pin = (pin &&& k.PROBE_MASK) ^^^ s.probe_invert_mask
      ∧ (probe_get_state k s pin ≠ 0
          ↔ ¬ ((pin &&& k.PROBE_MASK ≠ 0) ↔ (s.probe_invert_mask ≠ 0))) := by
    unfold probe_get_state
    rw [hM] at hlt hcases ⊢
    rw [and_two_pow_cases]
    rcases hcases with h0 | h1
    · rw [h0]
      cases pin.testBit b <;> simp [Nat.mod_eq_of_lt hlt, hpos]
    · rw [h1]
      cases pin.testBit b <;> simp [Nat.mod_eq_of_lt hlt, hpos]
  refine ⟨hval.2, hval.1, ?_, ?_⟩
  · intro other ho
    unfold probe_get_state
    rw [ho]
  · intro other b2 hM2 ht
    unfold probe_get_state
    rw [hM2, and_two_pow_cases, and_two_pow_cases, ht]

theorem get_state_is_xor_of_raw_and_mask_witness :
    probe_get_state target0
        (probe_configure_invert_mask target0 0 (state0 0 false 0 0 false) 1) 255 ≠ 0
      ↔ ¬ ((255 &&& target0.PROBE_MASK ≠ 0)
            ↔ ((probe_configure_invert_mask target0 0
                  (state0 0 false 0 0 false) 1).probe_invert_mask ≠ 0)) :=
  (get_state_is_xor_of_raw_and_mask target0
    (probe_configure_invert_mask target0 0 (state0 0 false 0 0 false) 1)
    (state0 0 false 0 0 false) 0 1 255 ⟨5, by decide, by decide⟩ rfl).1

/-- C15: `probe_configure_invert_mask` is idempotent and its two toggles
commute: configuring twice with the same inputs gives the state that
configuring once gives, the resulting mask does not depend on the state
before (so not on the previous mask), the function is the away toggle of line
59 after the setting toggle of line 58 from mask 0, and applying the two
toggles in the other order gives the same mask, from 0 and from any mask. -/
theorem configure_invert_mask_idempotent (k : Target) (flags away : Nat)
    (s other : State k.N_AXIS) :
    probe_configure_invert_mask k flags (probe_configure_invert_mask k flags s away) away
        = probe_configure_invert_mask k flags s away
      ∧ (probe_configure_invert_mask k flags s away).probe_invert_mask
          = (probe_configure_invert_mask k flags other away).probe_invert_mask
      ∧ (probe_configure_invert_mask k flags s away).probe_invert_mask
          = toggle_probe_away k away (toggle_invert_setting k flags 0)
      ∧ toggle_probe_away k away (toggle_invert_setting k flags 0)
          = toggle_invert_setting k flags (toggle_probe_away k away 0)
      ∧ (∀ m, toggle_probe_away k away (toggle_invert_setting k flags m)
          = toggle_invert_setting k flags (toggle_probe_away k away m)) := by
  have hcomm : ∀ m, toggle_probe_away k away (toggle_invert_setting k flags m)
      = toggle_invert_setting k flags (toggle_probe_away k away m) := by
    intro m
    unfold toggle_probe_away toggle_invert_setting
    split_ifs <;> rfl
  exact ⟨rfl, rfl, rfl, hcomm 0, hcomm⟩

/-! ## What each function leaves alone -/

theorem monitor_of_not_fires (k : Target) (s : State k.N_AXIS) (pin c : Nat)
    (hf : fires k s pin c = false) :
    (probe_state_monitor k s pin c).sys_probe_position = s.sys_probe_position
      ∧ (probe_state_monitor k s pin c).sys_rt_exec_state = s.sys_rt_exec_state
      ∧ (probe_state_monitor k s pin c).sys_probe_state = s.sys_probe_state := by
  unfold fires probe_state_monitor_step at hf
  unfold probe_state_monitor probe_state_monitor_step
  split_ifs at hf ⊢ <;> simp_all

/-- C16: a call of `probe_state_monitor` that does not run the trigger latch
(pin untriggered, session being started, or session still settling) leaves
`sys_probe_position` and `sys_rt_exec_state` as they were, and so do
`probe_configure_invert_mask`, `probe_set_debounce`, `probe_reset_debounce`
and `probe_configure_ignore_debounce`: the latch is the only writer of the
two. -/
theorem position_written_only_by_latch (k : Target) (s : State k.N_AXIS) :
    (∀ pin c, fires k s pin c = false →
        (probe_state_monitor k s pin c).sys_probe_position = s.sys_probe_position
          ∧ (probe_state_monitor k s pin c).sys_rt_exec_state = s.sys_rt_exec_state)
      ∧ (∀ pin c, (probe_state_monitor_step k s pin c).1 ≠ Path.latch →
        (probe_state_monitor k s pin c).sys_probe_position = s.sys_probe_position
          ∧ (probe_state_monitor k s pin c).sys_rt_exec_state = s.sys_rt_exec_state)
      ∧ (∀ flags away,
        (probe_configure_invert_mask k flags s away).sys_probe_position = s.sys_probe_position
          ∧ (probe_configure_invert_mask k flags s away).sys_rt_exec_state
              = s.sys_rt_exec_state)
      ∧ (∀ d : ℚ,
        (probe_set_debounce k s d).sys_probe_position = s.sys_probe_position
          ∧ (probe_set_debounce k s d).sys_rt_exec_state = s.sys_rt_exec_state)
      ∧ ((probe_reset_debounce s).sys_probe_position = s.sys_probe_position
          ∧ (probe_reset_debounce s).sys_rt_exec_state = s.sys_rt_exec_state)
      ∧ (∀ ignore,
        (probe_configure_ignore_debounce s ignore).sys_probe_position = s.sys_probe_position
          ∧ (probe_configure_ignore_debounce s ignore).sys_rt_exec_state
              = s.sys_rt_exec_state) := by
  refine ⟨?_, ?_, fun _ _ => ⟨rfl, rfl⟩, ?_, ⟨rfl, rfl⟩, fun _ => ⟨rfl, rfl⟩⟩
  · intro pin c hf
    exact ⟨(monitor_of_not_fires k s pin c hf).1, (monitor_of_not_fires k s pin c hf).2.1⟩
  · intro pin c hp
    have hf : fires k s pin c = false := by simp [fires, hp]
    exact ⟨(monitor_of_not_fires k s pin c hf).1, (monitor_of_not_fires k s pin c hf).2.1⟩
  · intro d
    unfold probe_set_debounce
    split_ifs <;> exact ⟨rfl, rfl⟩

theorem position_written_only_by_latch_witness :
    fires target0 (state0 0 true 5 100 false) 32 9 = false
      ∧ (probe_state_monitor target0 (state0 0 true 5 100 false) 32 9).sys_probe_position
          = (state0 0 true 5 100 false).sys_probe_position
      ∧ (probe_state_monitor target0 (state0 0 true 5 100 false) 32 9).sys_rt_exec_state
          = (state0 0 true 5 100 false).sys_rt_exec_state :=
  ⟨by decide,
    (position_written_only_by_latch target0 (state0 0 true 5 100 false)).1 32 9 (by decide)⟩

/-- C17: `probe_state_monitor` never writes configuration: for every state,
pin reading and counter value it leaves the debounce threshold, the polarity
mask and the ignore-debounce flag as they were; it does not write
`sys_position` either. -/
theorem monitor_keeps_configuration (k : Target) (s : State k.N_AXIS) (pin c : Nat) :
    (probe_state_monitor k s pin c).debounce_threshold = s.debounce_threshold
      ∧ (probe_state_monitor k s pin c).probe_invert_mask = s.probe_invert_mask
      ∧ (probe_state_monitor k s pin c).ignore_debounce = s.ignore_debounce
      ∧ (probe_state_monitor k s pin c).sys_position = s.sys_position := by
  unfold probe_state_monitor probe_state_monitor_step
  split_ifs <;> exact ⟨rfl, rfl, rfl, rfl⟩

/-- C18: `probe_reset_debounce` sets `debounce_started = false` and writes
nothing else (threshold, polarity mask, ignore flag, stale start tick and
trigger outputs are kept); with the ignore flag unset, the first triggered
tick after it does not run the trigger latch, whatever the stale start tick,
the threshold and the counter value `c` are, and starts a session with start
tick `c`. -/
theorem reset_discards_stale_session (k : Target) (s : State k.N_AXIS) :
    probe_reset_debounce s = { s with debounce_started := false }
      ∧ (probe_reset_debounce s).debounce_started = false
      ∧ (probe_reset_debounce s).debounce_threshold = s.debounce_threshold
      ∧ (probe_reset_debounce s).probe_invert_mask = s.probe_invert_mask
      ∧ (probe_reset_debounce s).ignore_debounce = s.ignore_debounce
      ∧ (probe_reset_debounce s).sys_probe_state = s.sys_probe_state
      ∧ (probe_reset_debounce s).sys_probe_position = s.sys_probe_position
      ∧ (probe_reset_debounce s).sys_rt_exec_state = s.sys_rt_exec_state
      ∧ (∀ pin c, s.ignore_debounce = false → probe_get_state k s pin ≠ 0 →
          fires k (probe_reset_debounce s) pin c = false
            ∧ (probe_state_monitor_step k (probe_reset_debounce s) pin c).1 = Path.start
            ∧ (probe_state_monitor k (probe_reset_debounce s) pin c).debounce_started = true
            ∧ (probe_state_monitor k (probe_reset_debounce s) pin c).debounce_start_cycle
                = c) := by
  refine ⟨rfl, rfl, rfl, rfl, rfl, rfl, rfl, rfl, ?_⟩
  intro pin c hign htrig
  have hp : ((pin &&& k.PROBE_MASK) ^^^ s.probe_invert_mask) % 256 ≠ 0 := htrig
  simp [fires, probe_state_monitor, probe_state_monitor_step, probe_reset_debounce,
    probe_get_state, hp, hign]

theorem reset_discards_stale_session_witness :
    fires target0 (state0 0 true 5 100 false) 32 200 = true
      ∧ fires target0 (probe_reset_debounce (state0 0 true 5 100 false)) 32 200 = false
      ∧ (probe_state_monitor target0
            (probe_reset_debounce (state0 0 true 5 100 false)) 32 200).debounce_start_cycle
          = 200 :=
  ⟨by decide,
    ((reset_discards_stale_session target0 (state0 0 true 5 100 false)).2.2.2.2.2.2.2.2
      32 200 rfl (by decide)).1,
    ((reset_discards_stale_session target0 (state0 0 true 5 100 false)).2.2.2.2.2.2.2.2
      32 200 rfl (by decide)).2.2.2⟩

/-- C20: every call of `probe_state_monitor` that runs the trigger latch sets
`sys_probe_state` to `PROBE_OFF` and leaves the session idle; every call that
does not run it leaves `sys_probe_state` as it was; so, with the ignore flag
unset, the call that follows a firing call does not run the latch, whatever
the pin reads, the counter is and the threshold is (0 included). -/
theorem fire_turns_probe_off (k : Target) (s : State k.N_AXIS) (pin c : Nat) :
    (fires k s pin c = true →
        (probe_state_monitor k s pin c).sys_probe_state = k.PROBE_OFF
          ∧ (probe_state_monitor k s pin c).debounce_started = false)
      ∧ (fires k s pin c = false →
        (probe_state_monitor k s pin c).sys_probe_state = s.sys_probe_state)
      ∧ (fires k s pin c = true → s.ignore_debounce = false →
        ∀ pnext cnext, fires k (probe_state_monitor k s pin c) pnext cnext = false) := by
  refine ⟨?_, ?_, ?_⟩
  · intro hf
    rw [monitor_of_fires k s pin c hf]
    exact ⟨rfl, rfl⟩
  · intro hf
    exact (monitor_of_not_fires k s pin c hf).2.2
  · intro hf hign pnext cnext
    rw [monitor_of_fires k s pin c hf]
    unfold fires probe_state_monitor_step
    split_ifs <;> simp_all

theorem fire_turns_probe_off_witness :
    fires target0 (state0 0 true 7 0 false) 32 7 = true
      ∧ (probe_state_monitor target0 (state0 0 true 7 0 false) 32 7).sys_probe_state
          = target0.PROBE_OFF
      ∧ fires target0 (probe_state_monitor target0 (state0 0 true 7 0 false) 32 7) 32 8
          = false :=
  ⟨by decide,
    ((fire_turns_probe_off target0 (state0 0 true 7 0 false) 32 7).1 (by decide)).1,
    (fire_turns_probe_off target0 (state0 0 true 7 0 false) 32 7).2.2 (by decide) rfl 32 8⟩

/-! ## The debounce window and counter wrap-around -/

theorem true_elapsed_ge (d : Nat → Nat) (hd : ∀ i, 1 ≤ d i) (n : Nat) :
    n ≤ true_elapsed d n := by
  induction n with
  | zero => exact Nat.zero_le _
  | succ m ih =>
    have := hd m
    simp only [true_elapsed]
    omega

theorem paced_ticks_succ (pin d : Nat → Nat) (c0 n : Nat) :
    paced_ticks pin d c0 (n + 1)
      = paced_ticks pin d c0 n ++ [(pin n, (c0 + true_elapsed d (n + 1)) % 65536)] := by
  simp [paced_ticks, List.range_succ]

/-- C19: for every threshold `T ≤ 49152`, with the ignore flag unset and the
pin reading triggered on every tick, when the counter advances by at least 1
and at most 16384 scaled units between consecutive ticks after the tick that
opens the session, there is a tick `n` after the opening one, the first whose
true (unwrapped) elapsed time since the opening is at least `T`, on which the
trigger latch runs, and it runs on no earlier tick: the run is the start
path, `n` times the fall-through path, then the latch path. -/
theorem window_never_skipped (k : Target) (s : State k.N_AXIS) (p0 c0 T : Nat)
    (pin d : Nat → Nat)
    (hT : T ≤ 49152) (hthr : s.debounce_threshold = T)
    (hign : s.ignore_debounce = false) (hidle : s.debounce_started = false)
    (hp0 : probe_get_state k s p0 ≠ 0) (htrig : ∀ i, probe_get_state k s (pin i) ≠ 0)
    (hd : ∀ i, 1 ≤ d i ∧ d i ≤ 16384) :
    ∃ n, T ≤ true_elapsed d (n + 1)
      ∧ (∀ j, j < n → true_elapsed d (j + 1) < T)
      ∧ (run_ticks k s ((p0, c0) :: paced_ticks pin d c0 (n + 1))).1
          = Path.start :: List.replicate n Path.hold ++ [Path.latch]
      ∧ (run_ticks k s ((p0, c0) :: paced_ticks pin d c0 (n + 1))).1.count Path.latch = 1 := by
  have hex : ∃ n, T ≤ true_elapsed d (n + 1) :=
    ⟨T, by have := true_elapsed_ge d (fun i => (hd i).1) (T + 1); omega⟩
  have hmin : ∀ j, j < Nat.find hex → true_elapsed d (j + 1) < T := by
    intro j hj
    exact Nat.lt_of_not_le (Nat.find_min hex hj)
  have hspec : T ≤ true_elapsed d (Nat.find hex + 1) := Nat.find_spec hex
  generalize Nat.find hex = n at hmin hspec
  have hbound : true_elapsed d (n + 1) < 65536 := by
    have hdn := hd n
    cases n with
    | zero =>
      simp only [true_elapsed]
      omega
    | succ m =>
      have hm := hmin m (Nat.lt_succ_self m)
      have : true_elapsed d (m + 1 + 1) = true_elapsed d (m + 1) + d (m + 1) := rfl
      omega
  have hfirst : probe_state_monitor_step k s p0 c0
      = (Path.start, { s with debounce_start_cycle := c0, debounce_started := true }) := by
    simp [probe_state_monitor_step, hp0, hidle, hign]
  have hmid := run_ticks_hold k
    { s with debounce_start_cycle := c0, debounce_started := true }
    (paced_ticks pin d c0 n) rfl hign (by
      intro t ht
      obtain ⟨j, hj, rfl⟩ := List.mem_map.mp ht
      have hj2 : j < n := List.mem_range.mp hj
      have hlt := hmin j hj2
      refine ⟨htrig j, ?_⟩
      show sub_u16 ((c0 + true_elapsed d (j + 1)) % 65536) c0 < s.debounce_threshold
      unfold sub_u16
      omega)
  have hel : sub_u16 ((c0 + true_elapsed d (n + 1)) % 65536) c0 = true_elapsed d (n + 1) := by
    unfold sub_u16
    omega
  have hlast : (probe_state_monitor_step k
      { s with debounce_start_cycle := c0, debounce_started := true }
      (pin n) ((c0 + true_elapsed d (n + 1)) % 65536)).1 = Path.latch := by
    have hp : ((pin n &&& k.PROBE_MASK) ^^^ s.probe_invert_mask) % 256 ≠ 0 := htrig n
    simp [probe_state_monitor_step, probe_get_state, hp, hign, hel, hthr, hspec]
  have hlen : (paced_ticks pin d c0 n).length = n := by simp [paced_ticks]
  have hrun : (run_ticks k s ((p0, c0) :: paced_ticks pin d c0 (n + 1))).1
      = Path.start :: List.replicate n Path.hold ++ [Path.latch] := by
    rw [paced_ticks_succ]
    simp only [run_ticks]
    rw [hfirst]
    simp only []
    rw [run_ticks_append, hmid, hlen]
    simp only [run_ticks]
    rw [hlast]
    simp
  refine ⟨n, hspec, hmin, hrun, ?_⟩
  rw [hrun]
  simp [List.count_cons, List.count_append, List.count_replicate]

theorem window_never_skipped_witness :
    (run_ticks target0 (state0 0 false 0 49152 false)
        ((32, 40000) :: paced_ticks (fun _ => 32) (fun _ => 16384) 40000 3)).1
        = [Path.start, Path.hold, Path.hold, Path.latch]
      ∧ ∃ n, 49152 ≤ true_elapsed (fun _ => 16384) (n + 1)
        ∧ (∀ j, j < n → true_elapsed (fun _ => 16384) (j + 1) < 49152)
        ∧ (run_ticks target0 (state0 0 false 0 49152 false)
            ((32, 40000) :: paced_ticks (fun _ => 32) (fun _ => 16384) 40000 (n + 1))).1
            = Path.start :: List.replicate n Path.hold ++ [Path.latch]
        ∧ (run_ticks target0 (state0 0 false 0 49152 false)
            ((32, 40000) :: paced_ticks (fun _ => 32) (fun _ => 16384) 40000 (n + 1))).1.count
              Path.latch = 1 :=
  ⟨by decide,
    window_never_skipped target0 (state0 0 false 0 49152 false) 32 40000 49152
      (fun _ => 32) (fun _ => 16384) (by decide) rfl rfl rfl (by decide)
      (fun _ => (by decide : probe_get_state target0 (state0 0 false 0 49152 false) 32 ≠ 0))
      (fun _ => ⟨(by decide : 1 ≤ 16384), (by decide : 16384 ≤ 16384)⟩)⟩

/-! ## Binary32 rounding -/

theorem round_even_err (q : ℚ) : |((round_even q : Int) : ℚ) - q| ≤ 1 / 2 := by
  have h1 := Int.floor_le q
  have h2 := Int.lt_floor_add_one q
  unfold round_even
  split_ifs with ha hb hc
  · rw [abs_le]
    constructor <;> linarith
  · rw [abs_le]
    push_cast
    constructor <;> linarith
  · have hq : q - ⌊q⌋ = 1 / 2 := le_antisymm (not_lt.mp hb) (not_lt.mp ha)
    rw [abs_le]
    constructor <;> linarith
  · have hq : q - ⌊q⌋ = 1 / 2 := le_antisymm (not_lt.mp hb) (not_lt.mp ha)
    rw [abs_le]
    push_cast
    constructor <;> linarith

theorem round_even_eq (q : ℚ) (n : Int) (h : |q - (n : ℚ)| < 1 / 2) : round_even q = n := by
  rw [abs_lt] at h
  by_cases hq : (n : ℚ) ≤ q
  · have hfl : ⌊q⌋ = n := Int.floor_eq_iff.mpr ⟨hq, by linarith⟩
    unfold round_even
    rw [hfl, if_pos (by linarith)]
  · have hfl : ⌊q⌋ = n - 1 := Int.floor_eq_iff.mpr ⟨by push_cast; linarith, by push_cast; linarith⟩
    unfold round_even
    rw [hfl, if_neg (by push_cast; linarith), if_pos (by push_cast; linarith)]
    omega

theorem two_pow_ulp_exp_pos (x : ℚ) : (0 : ℚ) < 2 ^ ulp_exp x := by positivity

theorem two_pow_ulp_exp_le (x : ℚ) (hx : x ≠ 0) :
    (2 : ℚ) ^ ulp_exp x ≤ |x| / 2 ^ 23 + 1 / 2 ^ 149 := by
  have hpos : 0 < |x| := abs_pos.mpr hx
  have hlog : (2 : ℚ) ^ Int.log 2 |x| ≤ |x| := by
    have := Int.zpow_log_le_self (b := 2) (r := |x|) (by decide) hpos
    simpa using this
  unfold ulp_exp
  rcases max_cases (Int.log 2 |x| - 23) (-149) with ⟨h, _⟩ | ⟨h, _⟩
  · rw [h, zpow_sub₀ (by norm_num : (2 : ℚ) ≠ 0)]
    have h23 : (2 : ℚ) ^ (23 : ℤ) = 2 ^ 23 := by norm_num
    rw [h23]
    have : (2 : ℚ) ^ Int.log 2 |x| / 2 ^ 23 ≤ |x| / 2 ^ 23 :=
      div_le_div_of_nonneg_right hlog (by positivity)
    have h0 : (0 : ℚ) ≤ 1 / 2 ^ 149 := by positivity
    linarith
  · rw [h]
    have h149 : (2 : ℚ) ^ (-149 : ℤ) = 1 / 2 ^ 149 := by
      rw [zpow_neg, one_div]
      norm_cast
    rw [h149]
    have : (0 : ℚ) ≤ |x| / 2 ^ 23 := by positivity
    linarith

/-- One rounding to binary32 moves a value by at most half a unit in the last
place: a relative error of `2^-24`, or `2^-150` in the subnormal range. -/
theorem round_f32_err (x : ℚ) : |round_f32 x - x| ≤ |x| / 2 ^ 24 + 1 / 2 ^ 150 := by
  by_cases hx : x = 0
  · subst hx
    have h0 : round_even (0 / 2 ^ ulp_exp (0 : ℚ)) = 0 := by
      apply round_even_eq
      simp
    unfold round_f32
    rw [h0]
    simp
  · have hu := two_pow_ulp_exp_pos x
    have hle := two_pow_ulp_exp_le x hx
    have herr := round_even_err (x / 2 ^ ulp_exp x)
    have heq : round_f32 x - x
        = (((round_even (x / 2 ^ ulp_exp x) : Int) : ℚ) - x / 2 ^ ulp_exp x) * 2 ^ ulp_exp x := by
      unfold round_f32
      field_simp
    rw [heq, abs_mul, abs_of_pos hu]
    have h1 : |((round_even (x / 2 ^ ulp_exp x) : Int) : ℚ) - x / 2 ^ ulp_exp x| * 2 ^ ulp_exp x
        ≤ 1 / 2 * 2 ^ ulp_exp x := mul_le_mul_of_nonneg_right herr hu.le
    have h2 : |x| / 2 ^ 24 + 1 / 2 ^ 150 = 1 / 2 * (|x| / 2 ^ 23 + 1 / 2 ^ 149) := by ring
    rw [h2]
    linarith

/-- A value in the binade `[2^(e+23), 2^(e+24))`, `e ≥ -149`, rounds to
`n * 2^e` when `n` is within less than one half of the value counted in units
of `2^e`. -/
theorem round_f32_eq (x : ℚ) (e n : Int) (he : -149 ≤ e)
    (hlo : (2 : ℚ) ^ (e + 23) ≤ |x|) (hhi : |x| < (2 : ℚ) ^ (e + 24))
    (hn : |x / 2 ^ e - (n : ℚ)| < 1 / 2) : round_f32 x = (n : ℚ) * 2 ^ e := by
  have hpos : 0 < |x| := lt_of_lt_of_le (by positivity) hlo
  have h1 : e + 23 ≤ Int.log 2 |x| := by
    rw [← Int.zpow_le_iff_le_log (by decide) hpos]
    simpa using hlo
  have h2 : Int.log 2 |x| < e + 24 := by
    rw [← Int.lt_zpow_iff_log_lt (by decide) hpos]
    simpa using hhi
  have hexp : ulp_exp x = e := by
    unfold ulp_exp
    omega
  unfold round_f32
  rw [hexp, round_even_eq _ n hn]

theorem round_f32_zero : round_f32 0 = 0 := by
  have h0 : round_even (0 / 2 ^ ulp_exp (0 : ℚ)) = 0 := by
    apply round_even_eq
    simp
  unfold round_f32
  rw [h0]
  simp

/-- Natural numbers below `2^24` are binary32 values: converting them to
`float` is exact. -/
theorem round_f32_natCast (N : Nat) (hN : N < 2 ^ 24) : round_f32 (N : ℚ) = (N : ℚ) := by
  rcases Nat.eq_zero_or_pos N with h0 | hpos
  · subst h0
    simpa using round_f32_zero
  · have hne : N ≠ 0 := Nat.pos_iff_ne_zero.mp hpos
    have hL : Nat.log 2 N < 24 := Nat.log_lt_of_lt_pow hne hN
    have hlo : 2 ^ Nat.log 2 N ≤ N := Nat.pow_log_le_self 2 hne
    have hhi : N < 2 ^ (Nat.log 2 N + 1) := Nat.lt_pow_succ_log_self (by decide) N
    have hexp : ((Nat.log 2 N : ℕ) : ℤ) - 23 = -((23 - Nat.log 2 N : ℕ) : ℤ) := by omega
    have hkey : (2 : ℚ) ^ (((Nat.log 2 N : ℕ) : ℤ) - 23) = ((2 : ℚ) ^ (23 - Nat.log 2 N))⁻¹ := by
      rw [hexp, zpow_neg, zpow_natCast]
    have hp : (0 : ℚ) < 2 ^ (23 - Nat.log 2 N) := by positivity
    have hres := round_f32_eq (N : ℚ) (((Nat.log 2 N : ℕ) : ℤ) - 23)
      ((N * 2 ^ (23 - Nat.log 2 N) : ℕ) : ℤ) (by omega)
      (by
        rw [sub_add_cancel, zpow_natCast, Nat.abs_cast]
        exact_mod_cast hlo)
      (by
        have h24 : ((Nat.log 2 N : ℕ) : ℤ) - 23 + 24 = ((Nat.log 2 N + 1 : ℕ) : ℤ) := by
          push_cast
          ring
        rw [h24, zpow_natCast, Nat.abs_cast]
        exact_mod_cast hhi)
      (by
        rw [hkey]
        push_cast
        rw [div_inv_eq_mul, sub_self, abs_zero]
        norm_num)
    rw [hres, hkey]
    push_cast
    field_simp

theorem round_f32_49152000 : round_f32 (round_f32 49152 * round_f32 1000) = 49152000 := by
  have h1 : round_f32 49152 = 49152 := by
    have := round_f32_natCast 49152 (by norm_num)
    simpa using this
  have h2 : round_f32 1000 = 1000 := by
    have := round_f32_natCast 1000 (by norm_num)
    simpa using this
  rw [h1, h2]
  have h3 := round_f32_eq (49152 * 1000) 2 12288000 (by norm_num) (by norm_num) (by norm_num)
    (by norm_num)
  rw [h3]
  norm_num

theorem round_f32_1000 : round_f32 1000 = 1000 := by
  have := round_f32_natCast 1000 (by norm_num)
  simpa using this

/-- `probe_set_debounce` on the target when `F_CPU / 64` is below `2^24`: the
constants and the conversion of `F_CPU / 64` to `float` are exact, so the
roundings that remain are those of the quotient of line 82 and of the
quotient and the product of line 87. -/
theorem probe_set_debounce_binary32_eq (k : Target) (s : State k.N_AXIS) (d : ℚ)
    (hK : k.F_CPU / 64 < 2 ^ 24) :
    probe_set_debounce_binary32 k s d
      = if d > round_f32 (49152000 / ((k.F_CPU / 64 : Nat) : ℚ)) then
          some { s with debounce_threshold := 49152 }
        else
          (cast_uint16 (round_f32 (((k.F_CPU / 64 : Nat) : ℚ) * round_f32 (d / 1000)))).map
            (fun n => { s with debounce_threshold := n }) := by
  unfold probe_set_debounce_binary32
  rw [round_f32_49152000, round_f32_1000, round_f32_natCast _ hK]

theorem round_f32_eq_pos (x : ℚ) (e n : Int) (he : -149 ≤ e)
    (hlo : (2 : ℚ) ^ (e + 23) ≤ x) (hhi : x < (2 : ℚ) ^ (e + 24))
    (hn1 : (n : ℚ) - 1 / 2 < x / 2 ^ e) (hn2 : x / 2 ^ e < (n : ℚ) + 1 / 2) :
    round_f32 x = (n : ℚ) * 2 ^ e := by
  have hpos : 0 < x := lt_of_lt_of_le (by positivity) hlo
  apply round_f32_eq x e n he
  · rwa [abs_of_pos hpos]
  · rwa [abs_of_pos hpos]
  · rw [abs_lt]
    constructor <;> linarith

theorem cast_uint16_eq (y : ℚ) (n : Nat) (h1 : (n : ℚ) ≤ y) (h2 : y < (n : ℚ) + 1)
    (h3 : n < 65536) : cast_uint16 y = some n := by
  have hn0 : (0 : ℚ) ≤ (n : ℚ) := Nat.cast_nonneg n
  have hn3 : (n : ℚ) + 1 ≤ 65536 := by exact_mod_cast h3
  have hfl : ⌊y⌋ = (n : ℤ) := Int.floor_eq_iff.mpr ⟨by exact_mod_cast h1, by exact_mod_cast h2⟩
  unfold cast_uint16
  rw [if_pos ⟨by linarith, by linarith⟩, hfl]
  rfl

/-- The clamp boundary the code computes, counted in scaled ticks, is within
`3/1000` of 49152. -/
theorem clamp_boundary_near (K : ℚ) (h1 : 1 ≤ K) (h2 : K ≤ 2 ^ 24) :
    |K * round_f32 (49152000 / K) / 1000 - 49152| ≤ 3 / 1000 := by
  have hKpos : 0 < K := by linarith
  have hB : 0 < 49152000 / K := by positivity
  have hKB : K * (49152000 / K) = 49152000 := by field_simp
  have he := round_f32_err (49152000 / K)
  rw [abs_of_pos hB, abs_le] at he
  have hup : K * (round_f32 (49152000 / K) - 49152000 / K)
      ≤ K * (49152000 / K / 2 ^ 24 + 1 / 2 ^ 150) := mul_le_mul_of_nonneg_left he.2 hKpos.le
  have hdn : K * (-(49152000 / K / 2 ^ 24 + 1 / 2 ^ 150))
      ≤ K * (round_f32 (49152000 / K) - 49152000 / K) := mul_le_mul_of_nonneg_left he.1 hKpos.le
  have e1 : K * (round_f32 (49152000 / K) - 49152000 / K)
      = K * round_f32 (49152000 / K) - 49152000 := by
    rw [mul_sub, hKB]
  have e2 : K * (49152000 / K / 2 ^ 24 + 1 / 2 ^ 150) = 49152000 / 2 ^ 24 + K / 2 ^ 150 := by
    rw [mul_add, ← mul_div_assoc, hKB]
    ring
  have e3 : K * (-(49152000 / K / 2 ^ 24 + 1 / 2 ^ 150))
      = -(49152000 / 2 ^ 24 + K / 2 ^ 150) := by
    rw [mul_neg, e2]
  rw [e1, e2] at hup
  rw [e1, e3] at hdn
  have hsmall : K / 2 ^ 150 ≤ 2 ^ 24 / 2 ^ 150 := div_le_div_of_nonneg_right h2 (by positivity)
  rw [abs_le]
  constructor
  · norm_num at hdn hsmall ⊢
    linarith
  · norm_num at hup hsmall ⊢
    linarith

/-- The two roundings of line 87 move the converted value by at most `1/100`
as long as it is at most 49153. -/
theorem product_err (K d : ℚ) (h1 : 1 ≤ K) (h2 : K ≤ 2 ^ 24) (hd : 0 ≤ d)
    (hx : K * d / 1000 ≤ 49153) :
    |round_f32 (K * round_f32 (d / 1000)) - K * d / 1000| ≤ 1 / 100 := by
  have hKpos : 0 < K := by linarith
  have hx0 : 0 ≤ K * d / 1000 := by positivity
  have hd0 : 0 ≤ d / 1000 := by positivity
  have ht := round_f32_err (d / 1000)
  rw [abs_of_nonneg hd0, abs_le] at ht
  have hup : K * (round_f32 (d / 1000) - d / 1000) ≤ K * (d / 1000 / 2 ^ 24 + 1 / 2 ^ 150) :=
    mul_le_mul_of_nonneg_left ht.2 hKpos.le
  have hdn : K * (-(d / 1000 / 2 ^ 24 + 1 / 2 ^ 150)) ≤ K * (round_f32 (d / 1000) - d / 1000) :=
    mul_le_mul_of_nonneg_left ht.1 hKpos.le
  have e1 : K * (round_f32 (d / 1000) - d / 1000)
      = K * round_f32 (d / 1000) - K * d / 1000 := by ring
  have e2 : K * (d / 1000 / 2 ^ 24 + 1 / 2 ^ 150) = K * d / 1000 / 2 ^ 24 + K / 2 ^ 150 := by ring
  have e3 : K * (-(d / 1000 / 2 ^ 24 + 1 / 2 ^ 150))
      = -(K * d / 1000 / 2 ^ 24 + K / 2 ^ 150) := by ring
  rw [e1, e2] at hup
  rw [e1, e3] at hdn
  have hsmall : K / 2 ^ 150 ≤ 2 ^ 24 / 2 ^ 150 := div_le_div_of_nonneg_right h2 (by positivity)
  have hK0 : 0 ≤ K / 2 ^ 150 := by positivity
  have hx24 : K * d / 1000 / 2 ^ 24 ≤ 49153 / 2 ^ 24 :=
    div_le_div_of_nonneg_right hx (by positivity)
  have hx24' : 0 ≤ K * d / 1000 / 2 ^ 24 := by positivity
  have hp : |K * round_f32 (d / 1000)| ≤ K * d / 1000 + (K * d / 1000 / 2 ^ 24 + K / 2 ^ 150) := by
    rw [abs_le]
    constructor <;> linarith
  have hy := round_f32_err (K * round_f32 (d / 1000))
  have hp24 : |K * round_f32 (d / 1000)| / 2 ^ 24
      ≤ (K * d / 1000 + (K * d / 1000 / 2 ^ 24 + K / 2 ^ 150)) / 2 ^ 24 :=
    div_le_div_of_nonneg_right hp (by positivity)
  rw [abs_le] at hy ⊢
  constructor
  · norm_num at hsmall hx24 hp24 hy ⊢
    linarith
  · norm_num at hsmall hx24 hp24 hy ⊢
    linarith

/-! ## `probe_set_debounce` in the arithmetic of the target -/

theorem clock_cast_bounds (k : Target) (hF : 64 ≤ k.F_CPU) (hK : k.F_CPU / 64 < 2 ^ 24) :
    (1 : ℚ) ≤ ((k.F_CPU / 64 : Nat) : ℚ) ∧ ((k.F_CPU / 64 : Nat) : ℚ) ≤ 2 ^ 24 := by
  have hpos : 1 ≤ k.F_CPU / 64 := Nat.div_pos hF (by decide)
  constructor
  · exact_mod_cast hpos
  · exact_mod_cast hK.le

/-- At or below the boundary the code computes, line 87 runs: its cast is
defined and the stored threshold is the integer part of the binary32
product, at most 49152 and within `1/100` of the truncated exact value. -/
theorem binary32_unclamped (k : Target) (s : State k.N_AXIS) (d : ℚ)
    (hF : 64 ≤ k.F_CPU) (hK : k.F_CPU / 64 < 2 ^ 24) (hd : 0 ≤ d)
    (hle : d ≤ round_f32 (49152000 / ((k.F_CPU / 64 : Nat) : ℚ))) :
    ((k.F_CPU / 64 : Nat) : ℚ) * d / 1000 ≤ 49152 + 3 / 1000
      ∧ cast_uint16 (round_f32 (((k.F_CPU / 64 : Nat) : ℚ) * round_f32 (d / 1000)))
          = some (Int.toNat ⌊round_f32 (((k.F_CPU / 64 : Nat) : ℚ) * round_f32 (d / 1000))⌋)
      ∧ probe_set_debounce_binary32 k s d
          = some { s with debounce_threshold :=
              (Int.toNat ⌊round_f32 (((k.F_CPU / 64 : Nat) : ℚ) * round_f32 (d / 1000))⌋) }
      ∧ Int.toNat ⌊round_f32 (((k.F_CPU / 64 : Nat) : ℚ) * round_f32 (d / 1000))⌋ ≤ 49152
      ∧ ((Int.toNat ⌊round_f32 (((k.F_CPU / 64 : Nat) : ℚ) * round_f32 (d / 1000))⌋ : Nat) : ℚ)
          ≤ ((k.F_CPU / 64 : Nat) : ℚ) * d / 1000 + 1 / 100
      ∧ ((k.F_CPU / 64 : Nat) : ℚ) * d / 1000 - (1 + 1 / 100)
          < ((Int.toNat ⌊round_f32 (((k.F_CPU / 64 : Nat) : ℚ) * round_f32 (d / 1000))⌋ : Nat)
              : ℚ) := by
  obtain ⟨h1, h2⟩ := clock_cast_bounds k hF hK
  rw [probe_set_debounce_binary32_eq k s d hK, if_neg (not_lt.mpr hle)]
  generalize ((k.F_CPU / 64 : Nat) : ℚ) = K at h1 h2 hle ⊢
  have hKpos : 0 < K := by linarith
  have hbd := clamp_boundary_near K h1 h2
  rw [abs_le] at hbd
  have hxle : K * d / 1000 ≤ K * round_f32 (49152000 / K) / 1000 :=
    div_le_div_of_nonneg_right (mul_le_mul_of_nonneg_left hle hKpos.le) (by norm_num)
  have hx : K * d / 1000 ≤ 49152 + 3 / 1000 := by linarith
  have hx0 : 0 ≤ K * d / 1000 := by positivity
  have herr := product_err K d h1 h2 hd (by linarith)
  rw [abs_le] at herr
  generalize round_f32 (K * round_f32 (d / 1000)) = y at herr ⊢
  have hfl1 := Int.floor_le y
  have hfl2 := Int.lt_floor_add_one y
  have hcast : cast_uint16 y = some (Int.toNat ⌊y⌋) := by
    unfold cast_uint16
    rw [if_pos ⟨by linarith, by linarith⟩]
  have hnat : ((Int.toNat ⌊y⌋ : Nat) : ℚ) ≤ K * d / 1000 + 1 / 100
      ∧ K * d / 1000 - (1 + 1 / 100) < ((Int.toNat ⌊y⌋ : Nat) : ℚ) := by
    rcases le_or_lt 0 ⌊y⌋ with hnn | hneg
    · have hz : ((Int.toNat ⌊y⌋ : Nat) : ℤ) = ⌊y⌋ := Int.toNat_of_nonneg hnn
      have hq : ((Int.toNat ⌊y⌋ : Nat) : ℚ) = ((⌊y⌋ : ℤ) : ℚ) := by exact_mod_cast hz
      rw [hq]
      constructor <;> linarith
    · have hz : Int.toNat ⌊y⌋ = 0 := Int.toNat_eq_zero.mpr hneg.le
      have hneg' : ((⌊y⌋ : ℤ) : ℚ) + 1 ≤ 0 := by exact_mod_cast hneg
      rw [hz]
      push_cast
      constructor <;> linarith
  have hle' : Int.toNat ⌊y⌋ ≤ 49152 := by
    have : ((Int.toNat ⌊y⌋ : Nat) : ℚ) < 49153 := by linarith [hnat.1]
    have : Int.toNat ⌊y⌋ < 49153 := by exact_mod_cast this
    omega
  refine ⟨hx, hcast, ?_, hle', hnat.1, hnat.2⟩
  rw [hcast]
  rfl

/-- Above the boundary the code computes, line 85 runs and nothing but the
threshold is written; the exact converted value is then above
`49152 - 3/1000`. -/
theorem binary32_clamped (k : Target) (s : State k.N_AXIS) (d : ℚ)
    (hF : 64 ≤ k.F_CPU) (hK : k.F_CPU / 64 < 2 ^ 24)
    (hgt : round_f32 (49152000 / ((k.F_CPU / 64 : Nat) : ℚ)) < d) :
    probe_set_debounce_binary32 k s d = some { s with debounce_threshold := 49152 }
      ∧ 49152 - 3 / 1000 < ((k.F_CPU / 64 : Nat) : ℚ) * d / 1000 := by
  obtain ⟨h1, h2⟩ := clock_cast_bounds k hF hK
  rw [probe_set_debounce_binary32_eq k s d hK, if_pos hgt]
  refine ⟨rfl, ?_⟩
  generalize ((k.F_CPU / 64 : Nat) : ℚ) = K at h1 h2 hgt ⊢
  have hKpos : 0 < K := by linarith
  have hbd := clamp_boundary_near K h1 h2
  rw [abs_le] at hbd
  have hxlt : K * round_f32 (49152000 / K) / 1000 < K * d / 1000 :=
    div_lt_div_of_pos_right (mul_lt_mul_of_pos_left hgt hKpos) (by norm_num)
  linarith

/-- Evaluation of line 87 from the values of its two roundings. -/
theorem binary32_eval (k : Target) (s : State k.N_AXIS) (d t y : ℚ) (n : Nat)
    (hK : k.F_CPU / 64 < 2 ^ 24)
    (hle : d ≤ round_f32 (49152000 / ((k.F_CPU / 64 : Nat) : ℚ)))
    (ht : round_f32 (d / 1000) = t)
    (hy : round_f32 (((k.F_CPU / 64 : Nat) : ℚ) * t) = y)
    (h1 : (n : ℚ) ≤ y) (h2 : y < (n : ℚ) + 1) (h3 : n < 65536) :
    probe_set_debounce_binary32 k s d = some { s with debounce_threshold := n } := by
  rw [probe_set_debounce_binary32_eq k s d hK, if_neg (not_lt.mpr hle), ht, hy,
    cast_uint16_eq y n h1 h2 h3]
  rfl

theorem target0_clock : ((target0.F_CPU / 64 : Nat) : ℚ) = 250000 := by
  norm_num [target0]

theorem target0_boundary :
    round_f32 (49152000 / ((target0.F_CPU / 64 : Nat) : ℚ)) = 12884902 / 65536 := by
  rw [target0_clock]
  have h := round_f32_eq_pos (49152000 / 250000) (-16) 12884902 (by norm_num) (by norm_num)
    (by norm_num) (by norm_num) (by norm_num)
  rw [h]
  norm_num

/-- C10, refuted as stated: at 16 MHz the duration 65 is below the clamp
boundary (`65 * 250000 / 1000 = 16250 ≤ 49152`); in binary32 `65 / 1000`
rounds to `8724152 * 2^-27`, its product with 250000 rounds to
`16639999 / 1024 = 16249.999...`, and line 87 stores 16249, which differs
from the exact value 16250 by 1, not by less than 1. -/
theorem set_debounce_65_stores_16249 :
    (65 : ℚ) * ((target0.F_CPU / 64 : Nat) : ℚ) / 1000 ≤ 49152
      ∧ (65 : ℚ) * ((target0.F_CPU / 64 : Nat) : ℚ) / 1000 = 16250
      ∧ probe_set_debounce_binary32 target0 (state0 0 false 0 0 false) 65
          = some { state0 0 false 0 0 false with debounce_threshold := 16249 }
      ∧ ¬ |((16249 : Nat) : ℚ) - (65 : ℚ) * ((target0.F_CPU / 64 : Nat) : ℚ) / 1000| < 1 := by
  have ht : round_f32 ((65 : ℚ) / 1000) = 8724152 / 134217728 := by
    have h := round_f32_eq_pos (65 / 1000) (-27) 8724152 (by norm_num) (by norm_num)
      (by norm_num) (by norm_num) (by norm_num)
    rw [h]
    norm_num
  have hy : round_f32 (((target0.F_CPU / 64 : Nat) : ℚ) * (8724152 / 134217728))
      = 16639999 / 1024 := by
    rw [target0_clock]
    have h := round_f32_eq_pos (250000 * (8724152 / 134217728)) (-10) 16639999 (by norm_num)
      (by norm_num) (by norm_num) (by norm_num) (by norm_num)
    rw [h]
    norm_num
  refine ⟨?_, ?_, ?_, ?_⟩
  · rw [target0_clock]
    norm_num
  · rw [target0_clock]
    norm_num
  · exact binary32_eval target0 _ 65 _ _ 16249 (by decide)
      (by rw [target0_boundary]; norm_num) ht hy (by norm_num) (by norm_num) (by norm_num)
  · rw [target0_clock]
    norm_num

/-- C10, amended: for every duration `d ≥ 0` with
`d * (F_CPU/64) / 1000 ≤ 49152`, `probe_set_debounce(d)` on the target
(binary32 arithmetic, `64 ≤ F_CPU`, `F_CPU/64 < 2^24`) stores an integer that
differs from the exact value `d * (F_CPU/64) / 1000` by less than
`1 + 1/100`: it is at most `1/100` above it and less than `1 + 1/100` below
it. -/
theorem set_debounce_within_rounding (k : Target) (s : State k.N_AXIS) (d : ℚ)
    (hF : 64 ≤ k.F_CPU) (hK : k.F_CPU / 64 < 2 ^ 24) (hd : 0 ≤ d)
    (hb : d * ((k.F_CPU / 64 : Nat) : ℚ) / 1000 ≤ 49152) :
    ∃ n : Nat, probe_set_debounce_binary32 k s d = some { s with debounce_threshold := n }
      ∧ (n : ℚ) ≤ d * ((k.F_CPU / 64 : Nat) : ℚ) / 1000 + 1 / 100
      ∧ d * ((k.F_CPU / 64 : Nat) : ℚ) / 1000 - (1 + 1 / 100) < (n : ℚ)
      ∧ |(n : ℚ) - d * ((k.F_CPU / 64 : Nat) : ℚ) / 1000| < 1 + 1 / 100 := by
  have hcomm : d * ((k.F_CPU / 64 : Nat) : ℚ) / 1000 = ((k.F_CPU / 64 : Nat) : ℚ) * d / 1000 := by
    ring
  rw [hcomm] at hb ⊢
  rcases le_or_lt d (round_f32 (49152000 / ((k.F_CPU / 64 : Nat) : ℚ))) with hle | hgt
  · obtain ⟨_, _, hres, _, hup, hdn⟩ := binary32_unclamped k s d hF hK hd hle
    refine ⟨_, hres, hup, hdn, ?_⟩
    rw [abs_lt]
    constructor <;> linarith
  · obtain ⟨hres, hx⟩ := binary32_clamped k s d hF hK hgt
    refine ⟨49152, hres, ?_, ?_, ?_⟩
    · push_cast
      linarith
    · push_cast
      linarith
    · rw [abs_lt]
      push_cast
      constructor <;> linarith

theorem set_debounce_within_rounding_witness :
    ∃ n : Nat, probe_set_debounce_binary32 target0 (state0 0 false 0 0 false) 65
        = some { state0 0 false 0 0 false with debounce_threshold := n }
      ∧ (n : ℚ) ≤ 65 * ((target0.F_CPU / 64 : Nat) : ℚ) / 1000 + 1 / 100
      ∧ 65 * ((target0.F_CPU / 64 : Nat) : ℚ) / 1000 - (1 + 1 / 100) < (n : ℚ)
      ∧ |(n : ℚ) - 65 * ((target0.F_CPU / 64 : Nat) : ℚ) / 1000| < 1 + 1 / 100 :=
  set_debounce_within_rounding target0 (state0 0 false 0 0 false) 65
    (by decide) (by decide) (by norm_num) (by rw [target0_clock]; norm_num)

/-- C11, the code at the failing input: at 16 MHz the duration `1/8` (a
binary32 value) has `(1/8) * (F_CPU/64) = 31250`, which does not exceed
49152, and `probe_set_debounce(1/8)` stores 31: line 87 divides the duration
by 1000 before it multiplies by `F_CPU/64`. -/
theorem set_debounce_eighth_stores_31 :
    (1 / 8 : ℚ) * ((target0.F_CPU / 64 : Nat) : ℚ) ≤ 49152
      ∧ Int.toNat ⌊(1 / 8 : ℚ) * ((target0.F_CPU / 64 : Nat) : ℚ)⌋ = 31250
      ∧ probe_set_debounce_binary32 target0 (state0 0 false 0 0 false) (1 / 8)
          = some { state0 0 false 0 0 false with debounce_threshold := 31 } := by
  have ht : round_f32 ((1 / 8 : ℚ) / 1000) = 8589935 / 68719476736 := by
    have h := round_f32_eq_pos (1 / 8 / 1000) (-36) 8589935 (by norm_num) (by norm_num)
      (by norm_num) (by norm_num) (by norm_num)
    rw [h]
    norm_num
  have hy : round_f32 (((target0.F_CPU / 64 : Nat) : ℚ) * (8589935 / 68719476736))
      = 16384001 / 524288 := by
    rw [target0_clock]
    have h := round_f32_eq_pos (250000 * (8589935 / 68719476736)) (-19) 16384001 (by norm_num)
      (by norm_num) (by norm_num) (by norm_num) (by norm_num)
    rw [h]
    norm_num
  refine ⟨?_, ?_, ?_⟩
  · rw [target0_clock]
    norm_num
  · rw [target0_clock]
    have h : (1 / 8 : ℚ) * 250000 = ((31250 : ℤ) : ℚ) := by norm_num
    rw [h, Int.floor_intCast]
    rfl
  · exact binary32_eval target0 _ (1 / 8) _ _ 31 (by decide)
      (by rw [target0_boundary]; norm_num) ht hy (by norm_num) (by norm_num) (by norm_num)

/-- On the target a call with a non-negative duration returns, and the
threshold it stores is at most 49152. -/
theorem binary32_threshold_le (k : Target) (s : State k.N_AXIS) (d : ℚ)
    (hF : 64 ≤ k.F_CPU) (hK : k.F_CPU / 64 < 2 ^ 24) (hd : 0 ≤ d) :
    ∃ n : Nat, n ≤ 49152
      ∧ probe_set_debounce_binary32 k s d = some { s with debounce_threshold := n } := by
  rcases le_or_lt d (round_f32 (49152000 / ((k.F_CPU / 64 : Nat) : ℚ))) with hle | hgt
  · obtain ⟨_, _, hres, hn, _, _⟩ := binary32_unclamped k s d hF hK hd hle
    exact ⟨_, hn, hres⟩
  · exact ⟨49152, le_refl _, (binary32_clamped k s d hF hK hgt).1⟩

/-- C9: the debounce threshold is at most 49152 in every reachable state: it
is 0 at startup, `probe_set_debounce(d)` stores a value of at most 49152 for
every duration `d ≥ 0` (the duration and the conversion taken as exact
rationals), and `probe_configure_invert_mask`, `probe_reset_debounce`,
`probe_configure_ignore_debounce` and `probe_state_monitor` leave it as it
is.  The same holds in the binary32 arithmetic of the target when
`64 ≤ F_CPU` and `F_CPU/64 < 2^24`: every call of `probe_set_debounce` with
`d ≥ 0` returns and stores a value of at most 49152, and the threshold is at
most 49152 in every state reachable there. -/
theorem threshold_le_49152 (k : Target) :
    (∀ (pos ppos : Fin k.N_AXIS → Int) (pstate rt : Nat),
        (State.initial pos ppos pstate rt).debounce_threshold = 0)
      ∧ (∀ (s : State k.N_AXIS) (d : ℚ), 0 ≤ d →
          (probe_set_debounce k s d).debounce_threshold ≤ 49152)
      ∧ (∀ (s : State k.N_AXIS) (flags away : Nat),
          (probe_configure_invert_mask k flags s away).debounce_threshold
            = s.debounce_threshold)
      ∧ (∀ (s : State k.N_AXIS), (probe_reset_debounce s).debounce_threshold
            = s.debounce_threshold)
      ∧ (∀ (s : State k.N_AXIS) (ignore : Bool),
          (probe_configure_ignore_debounce s ignore).debounce_threshold = s.debounce_threshold)
      ∧ (∀ (s : State k.N_AXIS) (pin c : Nat),
          (probe_state_monitor k s pin c).debounce_threshold = s.debounce_threshold)
      ∧ (∀ (s : State k.N_AXIS), Reachable k s → s.debounce_threshold ≤ 49152)
      ∧ (64 ≤ k.F_CPU → k.F_CPU / 64 < 2 ^ 24 → ∀ (s : State k.N_AXIS) (d : ℚ), 0 ≤ d →
          ∃ n : Nat, n ≤ 49152
            ∧ probe_set_debounce_binary32 k s d = some { s with debounce_threshold := n })
      ∧ (64 ≤ k.F_CPU → k.F_CPU / 64 < 2 ^ 24 → ∀ (s : State k.N_AXIS),
          ReachableBinary32 k s → s.debounce_threshold ≤ 49152) := by
  refine ⟨fun _ _ _ _ => rfl, fun s d _ => set_debounce_threshold_le k s d,
    fun _ _ _ => rfl, fun _ => rfl, fun _ _ => rfl, monitor_threshold_eq k, ?_,
    fun hF hK s d hd => binary32_threshold_le k s d hF hK hd, ?_⟩
  · intro s hs
    induction hs with
    | startup pos ppos pstate rt => exact Nat.zero_le _
    | init flags d s _ _ _ => exact set_debounce_threshold_le k _ d
    | configure_invert_mask flags away s _ ih => exact ih
    | reset_debounce s _ ih => exact ih
    | configure_ignore_debounce ignore s _ ih => exact ih
    | set_debounce d s _ _ _ => exact set_debounce_threshold_le k s d
    | state_monitor pin c s _ ih =>
      rw [monitor_threshold_eq]
      exact ih
  · intro hF hK s hs
    induction hs with
    | startup pos ppos pstate rt => exact Nat.zero_le _
    | init flags d s s2 hd _ hres _ =>
      obtain ⟨n, hn, hn2⟩ := binary32_threshold_le k (probe_configure_invert_mask k flags s 0) d
        hF hK hd
      unfold probe_init_binary32 at hres
      rw [hn2] at hres
      rw [← Option.some.inj hres]
      exact hn
    | configure_invert_mask flags away s _ ih => exact ih
    | reset_debounce s _ ih => exact ih
    | configure_ignore_debounce ignore s _ ih => exact ih
    | set_debounce d s s2 hd _ hres _ =>
      obtain ⟨n, hn, hn2⟩ := binary32_threshold_le k s d hF hK hd
      rw [hn2] at hres
      rw [← Option.some.inj hres]
      exact hn
    | state_monitor pin c s _ ih =>
      rw [monitor_threshold_eq]
      exact ih

theorem threshold_le_49152_witness :
    (probe_state_monitor target0
        (probe_set_debounce target0
          (State.initial (fun _ => 0) (fun _ => 0) 1 0) 500) 32 7).debounce_threshold
        ≤ 49152
      ∧ ∃ n : Nat, n ≤ 49152
        ∧ probe_set_debounce_binary32 target0 (state0 0 false 0 0 false) 65
            = some { state0 0 false 0 0 false with debounce_threshold := n } :=
  ⟨(threshold_le_49152 target0).2.2.2.2.2.2.1 _
      (Reachable.state_monitor 32 7 _
        (Reachable.set_debounce 500 _ (by norm_num)
          (Reachable.startup (fun _ => 0) (fun _ => 0) 1 0))),
    (threshold_le_49152 target0).2.2.2.2.2.2.2.1 (by decide) (by decide)
      (state0 0 false 0 0 false) 65 (by norm_num)⟩

end Probe
